import Mathlib

/-!
# Verification of the instruction-execution engine

A shallow embedding of the engine's core modules:

* `src/api/schema.js`   — instruction schema and validation,
* `src/api/adapter.js`  — per-action handlers, single-instruction executor,
  and the stream runner,
* `src/api/workflow.js` — the cache/orchestration layer.

Modelling conventions:

* JavaScript primitive values in instruction fields are modelled by `JSVal`
  (numbers as `Int`: the wire format only carries integral step ids and
  millisecond counts; float edge cases such as `NaN` are not modelled).
* Stateful browser interaction is modelled by a read-only `Page` of query
  answers, plus a trace (`List Op`) of operations each handler performs.
  Exceptions are `Except String`.
* Wall-clock timing is not modelled: every `elapsed` field is `0`.
-/

set_option maxHeartbeats 1000000

namespace AutoUi

/-- A JavaScript primitive value as it appears in instruction fields. -/
inductive JSVal where
  | undefined
  | jsNull
  | bool (b : Bool)
  | num (n : Int)
  | str (s : String)
deriving DecidableEq, Repr

/-- JavaScript truthiness of a primitive value: `undefined`, `null`, `false`,
`0` and the empty string are falsy, everything else is truthy. -/
def JSVal.truthy : JSVal → Bool
  | .undefined => false
  | .jsNull => false
  | .bool b => b
  | .num n => n != 0
  | .str s => s != ""

/-- String coercion, as performed by JavaScript template literals. -/
def JSVal.display : JSVal → String
  | .undefined => "undefined"
  | .jsNull => "null"
  | .bool true => "true"
  | .bool false => "false"
  | .num n => toString n
  | .str s => s

/-- `typeof v === 'number'`. -/
def JSVal.isNumber : JSVal → Bool
  | .num _ => true
  | _ => false

/-- `typeof v === 'string'`. -/
def JSVal.isString : JSVal → Bool
  | .str _ => true
  | _ => false

/-- The `params` object of an instruction, with one slot per parameter name
used anywhere in the engine; `JSVal.undefined` marks an absent property. -/
structure JParams where
  url : JSVal := .undefined
  semantic_locator : JSVal := .undefined
  fallback_selector : JSVal := .undefined
  value : JSVal := .undefined
  assertion : JSVal := .undefined
  timeout : JSVal := .undefined
  selector : JSVal := .undefined
  condition : JSVal := .undefined
  key : JSVal := .undefined
  direction : JSVal := .undefined
deriving DecidableEq, Repr

/-- The `params` field of an instruction as received: either a proper object
or some other primitive (the validator must reject the latter). -/
inductive ParamsV where
  | prim (v : JSVal)
  | obj (p : JParams)
deriving DecidableEq, Repr

/-- JavaScript truthiness of the `params` field (objects are always truthy). -/
def ParamsV.truthy : ParamsV → Bool
  | .prim v => v.truthy
  | .obj _ => true

/-- `typeof params === 'object'`; in JavaScript this is also true of `null`. -/
def ParamsV.isObjectType : ParamsV → Bool
  | .prim .jsNull => true
  | .prim _ => false
  | .obj _ => true

/-- Property access `params.url`: reading a property off a non-object primitive
yields `undefined` (access on `null`/`undefined` would throw, but the engine
only reads properties after its truthiness guards). -/
def ParamsV.url : ParamsV → JSVal
  | .obj p => p.url
  | .prim _ => .undefined

/-- Property access `params.semantic_locator`. -/
def ParamsV.semantic_locator : ParamsV → JSVal
  | .obj p => p.semantic_locator
  | .prim _ => .undefined

/-- Property access `params.fallback_selector`. -/
def ParamsV.fallback_selector : ParamsV → JSVal
  | .obj p => p.fallback_selector
  | .prim _ => .undefined

/-- Property access `params.value`. -/
def ParamsV.value : ParamsV → JSVal
  | .obj p => p.value
  | .prim _ => .undefined

/-- Property access `params.assertion`. -/
def ParamsV.assertion : ParamsV → JSVal
  | .obj p => p.assertion
  | .prim _ => .undefined

/-- Property access `params.timeout`. -/
def ParamsV.timeout : ParamsV → JSVal
  | .obj p => p.timeout
  | .prim _ => .undefined

/-- Property access `params.selector`. -/
def ParamsV.selector : ParamsV → JSVal
  | .obj p => p.selector
  | .prim _ => .undefined

/-- Property access `params.condition`. -/
def ParamsV.condition : ParamsV → JSVal
  | .obj p => p.condition
  | .prim _ => .undefined

/-- Property access `params.key`. -/
def ParamsV.key : ParamsV → JSVal
  | .obj p => p.key
  | .prim _ => .undefined

/-- Property access `params.direction`. -/
def ParamsV.direction : ParamsV → JSVal
  | .obj p => p.direction
  | .prim _ => .undefined

/-- An instruction record as handled by the engine.  The `preNavigated` field
models the source property `_preNavigated` (the spec's transient `preResolved`
flag). -/
structure JInstruction where
  step_id : JSVal := .undefined
  action_type : JSVal := .undefined
  params : ParamsV := .prim .undefined
  description : JSVal := .undefined
  preNavigated : JSVal := .undefined
deriving DecidableEq, Repr

/-! ## Schema validation (`src/api/schema.js`) -/

/-- `SUPPORTED_ACTIONS` from `schema.js`. -/
def SUPPORTED_ACTIONS : List String :=
  ["navigate", "click", "input", "verify", "wait", "select", "hover", "press", "scroll"]

/-- `Array.prototype.join(sep)`. -/
def joinStrings (sep : String) : List String → String
  | [] => ""
  | [x] => x
  | x :: y :: xs => x ++ sep ++ joinStrings sep (y :: xs)

/-- Result shape of `validateInstruction`. -/
structure ValidationResult where
  valid : Bool
  errors : List String
deriving DecidableEq, Repr

/-- `validateActionParams(actionType, params)` from `schema.js`: the per-action
required-parameter rules.  Checks in source order; both checks of `input` and
`select` run, so both violations can be reported. -/
def validateActionParams (actionType : String) (params : ParamsV) : List String :=
  if actionType = "navigate" then
    if !((params.url).truthy && (params.url).isString) then
      ["navigate 指令必须包含有效的 url 参数"]
    else []
  else if actionType = "click" ∨ actionType = "hover" then
    if !(params.semantic_locator).truthy && !(params.fallback_selector).truthy then
      [actionType ++ " 指令必须包含 semantic_locator 或 fallback_selector"]
    else []
  else if actionType = "input" then
    (if !(params.semantic_locator).truthy && !(params.fallback_selector).truthy then
      ["input 指令必须包含 semantic_locator 或 fallback_selector"]
    else []) ++
    (if params.value = .undefined ∨ params.value = .jsNull then
      ["input 指令必须包含 value 参数"]
    else [])
  else if actionType = "verify" then
    if !((params.assertion).truthy && (params.assertion).isString) then
      ["verify 指令必须包含有效的 assertion 参数"]
    else []
  else if actionType = "wait" then
    if !(params.timeout).truthy && !(params.selector).truthy && !(params.condition).truthy then
      ["wait 指令必须包含 timeout、selector 或 condition 参数之一"]
    else []
  else if actionType = "select" then
    (if !(params.semantic_locator).truthy && !(params.fallback_selector).truthy then
      ["select 指令必须包含 semantic_locator 或 fallback_selector"]
    else []) ++
    (if !(params.value).truthy then
      ["select 指令必须包含 value 参数"]
    else [])
  else if actionType = "press" then
    if !((params.key).truthy && (params.key).isString) then
      ["press 指令必须包含有效的 key 参数"]
    else []
  else if actionType = "scroll" then
    if !(params.direction).truthy then
      ["scroll 指令必须包含 direction 参数 (up/down/top/bottom)"]
    else []
  else []

/-- The `SUPPORTED_ACTIONS.includes(instruction.action_type)` check; `includes`
uses strict comparison, so a non-string action type is never included. -/
def isSupportedActionVal : JSVal → Bool
  | .str s => decide (s ∈ SUPPORTED_ACTIONS)
  | _ => false

/-- `validateInstruction(instruction)` from `schema.js`: all top-level checks
run unconditionally (so every violation is collected), and the per-action
parameter rules run when both `params` and `action_type` are truthy. -/
def validateInstruction (instruction : JInstruction) : ValidationResult :=
  let e1 := if !instruction.step_id.isNumber then
      ["step_id 必须是数字, 当前值: " ++ instruction.step_id.display]
    else []
  let e2 := if !instruction.action_type.truthy then
      ["action_type 不能为空"]
    else if !isSupportedActionVal instruction.action_type then
      ["不支持的 action_type: " ++ instruction.action_type.display ++
        ", 支持的类型: " ++ joinStrings ", " SUPPORTED_ACTIONS]
    else []
  let e3 := if !(instruction.params.truthy && instruction.params.isObjectType) then
      ["params 必须是一个对象"]
    else []
  let e4 := if !(instruction.description.truthy && instruction.description.isString) then
      ["description 必须是非空字符串"]
    else []
  let e5 := if instruction.params.truthy && instruction.action_type.truthy then
      match instruction.action_type with
      | .str s => validateActionParams s instruction.params
      | _ => []
    else []
  let errors := e1 ++ e2 ++ e3 ++ e4 ++ e5
  { valid := errors.isEmpty, errors := errors }

/-! ## The adapter (`src/api/adapter.js`)

Handlers are modelled as pure functions from a read-only `Page` of query
answers (and the injected semantic resolver `ai`) to a result
(`Except String JSVal`, where `.error` is a thrown exception) together with
the trace of browser/AI operations performed, in order. -/

/-- One observable browser or resolver operation performed by a handler. -/
inductive Op where
  | goto (url : String)
  | waitAttached (sel : String) (ms : Int)
  | clickNative (sel : String)
  | dispatchClick (sel : String)
  | fillNative (sel : String) (v : String)
  | jsSetValue (sel : String) (v : String)
  | aiCall (cmd : String)
  | waitVisible (sel : String) (ms : Int)
  | waitLoadState (st : String)
  | sleep (ms : Int)
  | selectNative (sel : String) (v : String)
  | hoverNative (sel : String)
  | keyPress (k : String)
  | scrollPage (dir : String)
deriving DecidableEq, Repr

/-- The browser page, abstracted to the query answers the handlers consult.
`...Err` fields give the exception message a primitive throws, or `none` if it
succeeds.  The page is read-only here: handler claims are about which
operations run and what result is returned, not about DOM mutation. -/
structure Page where
  countOf : String → Nat
  visibleCountOf : String → Nat
  isVisibleOf : String → Bool
  attachedWithin : String → Int → Bool
  visibleWithin : String → Int → Bool
  gotoErr : String → Option String
  clickErr : String → Option String
  dispatchClickErr : String → Option String
  fillErr : String → String → Option String
  evalSetValueErr : String → String → Option String
  selectErr : String → String → Option String
  hoverErr : String → Option String
  keyPressErr : String → Option String
  loadStateErr : String → Option String
  scrollEvalErr : String → Option String
  content : String
  innerTextBody : Except String String

/-- The execution context `{ page, ai }`: the Zerostep resolver is an injected
function that may throw (`.error`) or return a judgment value. -/
structure Ctx where
  page : Page
  ai : String → Except String JSVal

/-- `handleNavigate`: always deterministic, `page.goto(url, domcontentloaded)`;
a navigation failure propagates to the executor. -/
def handleNavigate (page : Page) (params : ParamsV) : Except String JSVal × List Op :=
  let url := (params.url).display
  match page.gotoErr url with
  | none => (.ok .undefined, [.goto url])
  | some e => (.error e, [.goto url])

/-- The semantic tier of `handleClick`: invoke the resolver when a
`semantic_locator` is present, otherwise throw the resolution error. -/
def clickAiTier (ai : String → Except String JSVal) (sl : JSVal) (acc : List Op) :
    Except String JSVal × List Op :=
  if sl.truthy then
    let cmd := "Click on the " ++ sl.display
    match ai cmd with
    | .ok _ => (.ok .undefined, acc ++ [.aiCall cmd])
    | .error e => (.error e, acc ++ [.aiCall cmd])
  else (.error "点击操作失败: Playwright 和 AI 均不可用", acc)

/-- `handleClick`: with a truthy `fallback_selector`, wait (caught) for
attachment, click the first visible match, else dispatch a JS click on a
present-but-hidden match; any deterministic-tier exception is swallowed and
the semantic tier runs.  Without a usable selector the semantic tier runs
directly. -/
def handleClick (page : Page) (ai : String → Except String JSVal) (params : ParamsV) :
    Except String JSVal × List Op :=
  let sl := params.semantic_locator
  let fb := params.fallback_selector
  if fb.truthy then
    let sel := fb.display
    let t0 : List Op := [.waitAttached sel 5000]
    if page.visibleCountOf sel > 0 then
      match page.clickErr sel with
      | none => (.ok .undefined, t0 ++ [.clickNative sel])
      | some _ => clickAiTier ai sl (t0 ++ [.clickNative sel])
    else if page.countOf sel > 0 then
      match page.dispatchClickErr sel with
      | none => (.ok .undefined, t0 ++ [.dispatchClick sel])
      | some _ => clickAiTier ai sl (t0 ++ [.dispatchClick sel])
    else clickAiTier ai sl t0
  else clickAiTier ai sl []

/-- The semantic tier of `handleInput`. -/
def inputAiTier (ai : String → Except String JSVal) (sl v : JSVal) (acc : List Op) :
    Except String JSVal × List Op :=
  if sl.truthy then
    let cmd := "Type \"" ++ v.display ++ "\" into the " ++ sl.display
    match ai cmd with
    | .ok _ => (.ok .undefined, acc ++ [.aiCall cmd])
    | .error e => (.error e, acc ++ [.aiCall cmd])
  else (.error "输入操作失败: Playwright 和 AI 均不可用", acc)

/-- `handleInput`: wait (uncaught, 10s) for attachment, `fill` a visible match,
else set the value through `page.evaluate`; deterministic-tier exceptions are
swallowed and the semantic tier runs. -/
def handleInput (page : Page) (ai : String → Except String JSVal) (params : ParamsV) :
    Except String JSVal × List Op :=
  let sl := params.semantic_locator
  let fb := params.fallback_selector
  let v := params.value
  if fb.truthy then
    let sel := fb.display
    let t0 : List Op := [.waitAttached sel 10000]
    if !page.attachedWithin sel 10000 then inputAiTier ai sl v t0
    else if page.isVisibleOf sel then
      match page.fillErr sel v.display with
      | none => (.ok .undefined, t0 ++ [.fillNative sel v.display])
      | some _ => inputAiTier ai sl v (t0 ++ [.fillNative sel v.display])
    else
      match page.evalSetValueErr sel v.display with
      | none => (.ok .undefined, t0 ++ [.jsSetValue sel v.display])
      | some _ => inputAiTier ai sl v (t0 ++ [.jsSetValue sel v.display])
  else inputAiTier ai sl v []

/-! ### Keyword extraction for verify (`extractKeywordsFromAssertion`)

The source applies four global regexes, each capturing the shortest span
between a pair of quote characters (`'…'` twice and `"…"` twice, as the
character classes in the file are ASCII), skips empty captures, and
deduplicates preserving first occurrence.  JavaScript `.` does not match line
terminators, so a span containing one never matches. -/

/-- The double-quote character. -/
def qc : Char := Char.ofNat 34

/-- The single-quote character. -/
def sq : Char := Char.ofNat 39

/-- The backslash character. -/
def bs : Char := Char.ofNat 92

/-- The opening curly brace character. -/
def lbr : Char := Char.ofNat 123

/-- The closing curly brace character. -/
def rbr : Char := Char.ofNat 125

/-- A character `.` refuses to match: the JavaScript line terminators. -/
def lineTerm (c : Char) : Bool :=
  c = Char.ofNat 10 || c = Char.ofNat 13 || c.toNat = 0x2028 || c.toNat = 0x2029

/-- Consume characters up to the next closing quote; `none` when a line
terminator or the end of input intervenes (the lazy `(.*?)` cannot cross
either). -/
def grabUntil (closeP : Char → Bool) : List Char → Option (List Char × List Char)
  | [] => none
  | c :: rest =>
    if closeP c then some ([], rest)
    else if lineTerm c then none
    else
      match grabUntil closeP rest with
      | some (kw, r) => some (c :: kw, r)
      | none => none

/-- The scan loop of `scanQuoted`, structurally recursive on a fuel that
bounds the input length (every step consumes at least one character, and a
successful span consumes past its closing quote, so the bound is kept). -/
def scanQuotedAux (openP closeP : Char → Bool) : Nat → List Char → List String
  | 0, _ => []
  | _, [] => []
  | fuel + 1, c :: rest =>
    if openP c then
      match grabUntil closeP rest with
      | some (kw, r) => String.mk kw :: scanQuotedAux openP closeP fuel r
      | none => scanQuotedAux openP closeP fuel rest
    else scanQuotedAux openP closeP fuel rest

/-- All matches of one quoting pattern, in order: at each opening quote, take
the lazily-delimited span if one exists, and resume after it; on a failed
span the scan resumes right after the opening quote (the matched region can
hold no quote character, so this agrees with the regex engine's restart). -/
def scanQuoted (openP closeP : Char → Bool) (l : List Char) : List String :=
  scanQuotedAux openP closeP l.length l

/-- `[...new Set(list)]`: deduplication preserving first occurrence. -/
def dedupKeepAux (seen : List String) : List String → List String
  | [] => []
  | x :: xs =>
    if seen.contains x then dedupKeepAux seen xs
    else x :: dedupKeepAux (x :: seen) xs

/-- `extractKeywordsFromAssertion(assertion)` from `adapter.js`. -/
def extractKeywordsFromAssertion (assertion : String) : List String :=
  let m1 := scanQuoted (fun c => c = sq) (fun c => c = sq) assertion.data
  let m2 := scanQuoted (fun c => c = qc) (fun c => c = qc) assertion.data
  let keywords := (m1 ++ m2 ++ m1 ++ m2).filter (fun kw => kw ≠ "")
  dedupKeepAux [] keywords

/-- `String.prototype.includes` on character lists. -/
def containsSub (hay needle : List Char) : Bool :=
  match hay with
  | [] => needle.isEmpty
  | _ :: t => needle.isPrefixOf hay || containsSub t needle

/-- `haystack.includes(needle)`. -/
def strIncludes (hay needle : String) : Bool := containsSub hay.data needle.data

/-- The semantic tier of `handleVerify`: ask the resolver to judge the
assertion; a strict-`false` reply throws the assertion failure, anything else
is returned as the (passed) result. -/
def verifyAiTier (ai : String → Except String JSVal) (assertion : String) :
    Except String JSVal × List Op :=
  let cmd := "Verify that " ++ assertion
  match ai cmd with
  | .error e => (.error e, [.aiCall cmd])
  | .ok r =>
    if r = .bool false then (.error ("断言失败: " ++ assertion), [.aiCall cmd])
    else (.ok r, [.aiCall cmd])

/-- `handleVerify`: extract quoted keywords; when at least one occurs in the
body text (or, if `innerText` throws, the markup) or the markup, pass with
`true` without touching the resolver; otherwise delegate to the semantic
tier. -/
def handleVerify (page : Page) (ai : String → Except String JSVal) (params : ParamsV) :
    Except String JSVal × List Op :=
  let assertion := (params.assertion).display
  let keywords := extractKeywordsFromAssertion assertion
  if keywords.length > 0 then
    let pageContent := page.content
    let pageText := match page.innerTextBody with
      | .ok t => t
      | .error _ => pageContent
    let found := keywords.any (fun kw => strIncludes pageText kw || strIncludes pageContent kw)
    if found then (.ok (.bool true), [])
    else verifyAiTier ai assertion
  else verifyAiTier ai assertion

/-- Numeric reading of a `JSVal` where the source does arithmetic on it
(non-numeric coercions are not modelled: the wire format carries numbers). -/
def jsNumVal : JSVal → Int
  | .num n => n
  | _ => 0

/-- `handleWait`: wait for selector visibility under the bounded timeout
`min(timeout || 5000, 3000)`; on timeout degrade (caught) to the
`domcontentloaded` load state plus a fixed 500ms pause and return normally.
Otherwise handle the `networkidle`/custom-condition/bare-timeout branches. -/
def handleWait (page : Page) (params : ParamsV) : Except String JSVal × List Op :=
  let timeout := params.timeout
  let sel := params.selector
  let condition := params.condition
  if sel.truthy then
    let s := sel.display
    let tms : Int := min (if timeout.truthy then jsNumVal timeout else 5000) 3000
    if page.visibleWithin s tms then (.ok .undefined, [.waitVisible s tms])
    else (.ok .undefined, [.waitVisible s tms, .waitLoadState "domcontentloaded", .sleep 500])
  else if condition = .str "networkidle" then
    match page.loadStateErr "networkidle" with
    | none => (.ok .undefined, [.waitLoadState "networkidle"])
    | some e => (.error e, [.waitLoadState "networkidle"])
  else if condition.truthy then
    (.ok .undefined, [.waitLoadState "networkidle",
      .sleep (if timeout.truthy then jsNumVal timeout else 3000)])
  else if timeout.truthy then
    (.ok .undefined, [.sleep (jsNumVal timeout)])
  else (.ok .undefined, [])

/-- The semantic tier of `handleSelect`. -/
def selectAiTier (ai : String → Except String JSVal) (sl v : JSVal) (acc : List Op) :
    Except String JSVal × List Op :=
  if sl.truthy then
    let cmd := "Select \"" ++ v.display ++ "\" from the " ++ sl.display
    match ai cmd with
    | .ok _ => (.ok .undefined, acc ++ [.aiCall cmd])
    | .error e => (.error e, acc ++ [.aiCall cmd])
  else (.error "选择操作失败: Playwright 和 AI 均不可用", acc)

/-- `handleSelect`: native `selectOption` when a fallback selector is given
(failures swallowed), else the semantic tier. -/
def handleSelect (page : Page) (ai : String → Except String JSVal) (params : ParamsV) :
    Except String JSVal × List Op :=
  let sl := params.semantic_locator
  let fb := params.fallback_selector
  let v := params.value
  if fb.truthy then
    let sel := fb.display
    match page.selectErr sel v.display with
    | none => (.ok .undefined, [.selectNative sel v.display])
    | some _ => selectAiTier ai sl v [.selectNative sel v.display]
  else selectAiTier ai sl v []

/-- The semantic tier of `handleHover`. -/
def hoverAiTier (ai : String → Except String JSVal) (sl : JSVal) (acc : List Op) :
    Except String JSVal × List Op :=
  if sl.truthy then
    let cmd := "Hover over the " ++ sl.display
    match ai cmd with
    | .ok _ => (.ok .undefined, acc ++ [.aiCall cmd])
    | .error e => (.error e, acc ++ [.aiCall cmd])
  else (.error "悬停操作失败: Playwright 和 AI 均不可用", acc)

/-- `handleHover`: native hover when a fallback selector is given (failures
swallowed), else the semantic tier. -/
def handleHover (page : Page) (ai : String → Except String JSVal) (params : ParamsV) :
    Except String JSVal × List Op :=
  let sl := params.semantic_locator
  let fb := params.fallback_selector
  if fb.truthy then
    let sel := fb.display
    match page.hoverErr sel with
    | none => (.ok .undefined, [.hoverNative sel])
    | some _ => hoverAiTier ai sl [.hoverNative sel]
  else hoverAiTier ai sl []

/-- `handlePress`: always deterministic, `page.keyboard.press(key)`. -/
def handlePress (page : Page) (params : ParamsV) : Except String JSVal × List Op :=
  let k := (params.key).display
  match page.keyPressErr k with
  | none => (.ok .undefined, [.keyPress k])
  | some e => (.error e, [.keyPress k])

/-- The page-level scroll of `handleScroll` (`page.evaluate` of 75%-viewport
scrolling). -/
def pageScroll (page : Page) (dir : JSVal) (acc : List Op) :
    Except String JSVal × List Op :=
  match page.scrollEvalErr dir.display with
  | none => (.ok .undefined, acc ++ [.scrollPage dir.display])
  | some e => (.error e, acc ++ [.scrollPage dir.display])

/-- `handleScroll`: semantic tier first when a locator is given (its failure is
swallowed), then the page-level scroll. -/
def handleScroll (page : Page) (ai : String → Except String JSVal) (params : ParamsV) :
    Except String JSVal × List Op :=
  let dir := params.direction
  let sl := params.semantic_locator
  if sl.truthy then
    let cmd := "Scroll the " ++ sl.display ++ " " ++ dir.display
    match ai cmd with
    | .ok _ => (.ok .undefined, [.aiCall cmd])
    | .error _ => pageScroll page dir [.aiCall cmd]
  else pageScroll page dir []

/-! ### The instruction executor -/

/-- The per-instruction `ExecutionResult`. -/
structure ExecutionResult where
  success : Bool
  result : Option JSVal := none
  error : Option String := none
  elapsed : Nat := 0
deriving DecidableEq, Repr

/-- The `switch (action)` dispatch of `executeInstruction`; an unmatched
action type throws. -/
def dispatchAction (ctx : Ctx) (i : JInstruction) : Except String JSVal × List Op :=
  match i.action_type with
  | .str "navigate" => handleNavigate ctx.page i.params
  | .str "click" => handleClick ctx.page ctx.ai i.params
  | .str "input" => handleInput ctx.page ctx.ai i.params
  | .str "verify" => handleVerify ctx.page ctx.ai i.params
  | .str "wait" => handleWait ctx.page i.params
  | .str "select" => handleSelect ctx.page ctx.ai i.params
  | .str "hover" => handleHover ctx.page ctx.ai i.params
  | .str "press" => handlePress ctx.page i.params
  | .str "scroll" => handleScroll ctx.page ctx.ai i.params
  | a => (.error ("不支持的指令类型: " ++ a.display), [])

/-- `executeInstruction(instruction, context)`: skip (with success) when the
transient `_preNavigated` flag is truthy; otherwise dispatch inside the
`try`, turning any thrown error into `{success: false, error}`. -/
def executeInstruction (ctx : Ctx) (instruction : JInstruction) :
    ExecutionResult × List Op :=
  if instruction.preNavigated.truthy then
    ({ success := true, result := some (.str "pre-navigated") }, [])
  else
    match dispatchAction ctx instruction with
    | (.ok v, ops) => ({ success := true, result := some v }, ops)
    | (.error e, ops) => ({ success := false, error := some e }, ops)

/-! ### The stream runner -/

/-- A result entry of the stream runner: the executor's result augmented
with the instruction's `step_id` and `description`. -/
structure StepResult where
  step_id : JSVal
  description : JSVal
  success : Bool
  result : Option JSVal
  error : Option String
  elapsed : Nat
deriving DecidableEq, Repr

/-- The augmented result the stream runner pushes for instruction `i`. -/
def stepResultOf (ctx : Ctx) (i : JInstruction) : StepResult :=
  let r := (executeInstruction ctx i).1
  { step_id := i.step_id, description := i.description,
    success := r.success, result := r.result, error := r.error, elapsed := r.elapsed }

/-- The inter-step pause, performed after each step when `stepDelay > 0`. -/
def delayOps (stepDelay : Nat) : List Op :=
  if stepDelay > 0 then [.sleep (stepDelay : Int)] else []

/-- The iteration of `executeInstructionStream`: returns the pushed results,
the success and failure counters, and the concatenated operation trace.
On a failure with `stopOnError` the loop breaks before the inter-step delay. -/
def runStream (ctx : Ctx) (stopOnError : Bool) (stepDelay : Nat) :
    List JInstruction → List StepResult × Nat × Nat × List Op
  | [] => ([], 0, 0, [])
  | i :: rest =>
    let ops := (executeInstruction ctx i).2
    if (executeInstruction ctx i).1.success then
      let (rs, s, f, t) := runStream ctx stopOnError stepDelay rest
      (stepResultOf ctx i :: rs, s + 1, f, ops ++ delayOps stepDelay ++ t)
    else if stopOnError then ([stepResultOf ctx i], 0, 1, ops)
    else
      let (rs, s, f, t) := runStream ctx stopOnError stepDelay rest
      (stepResultOf ctx i :: rs, s, f + 1, ops ++ delayOps stepDelay ++ t)

/-- The summary built by `executeInstructionStream`. -/
structure StreamSummary where
  total : Nat
  success : Nat
  fail : Nat
  allPassed : Bool
deriving DecidableEq, Repr

/-- Return shape of `executeInstructionStream`, plus the operation trace. -/
structure StreamOutcome where
  results : List StepResult
  summary : StreamSummary
  trace : List Op
deriving DecidableEq, Repr

/-- `executeInstructionStream(instructions, context, {stopOnError, stepDelay})`:
run the loop and build the summary, with
`allPassed = (failCount === 0 && successCount === instructions.length)`. -/
def executeInstructionStream (ctx : Ctx) (instructions : List JInstruction)
    (stopOnError : Bool) (stepDelay : Nat) : StreamOutcome :=
  let (rs, s, f, t) := runStream ctx stopOnError stepDelay instructions
  { results := rs,
    summary := { total := instructions.length, success := s, fail := f,
                 allPassed := (f == 0) && (s == instructions.length) },
    trace := t }

/-! ## JSON serialization (the cache file format)

The cache stores `JSON.stringify(instructions, null, 2)` and reloads it with
`JSON.parse`.  `Jv` is the JSON value universe the wire format uses (numbers
as integers).  The renderer is compact: the indentation argument of
`JSON.stringify` only inserts whitespace, which `JSON.parse` skips, so it is
immaterial to the round-trip; likewise control characters below `0x20` other
than newline, carriage return and tab are carried verbatim rather than
`\uXXXX`-escaped (both sides of the codec agree on them, so the round-trip
is again unaffected). -/

/-- A JSON value (numbers restricted to integers, as in the wire format). -/
inductive Jv where
  | nullv
  | boolv (b : Bool)
  | intv (n : Int)
  | strv (s : String)
  | arrv (elems : List Jv)
  | objv (fields : List (String × Jv))

/-- Decimal digit character of `d < 10`. -/
def digitChar (d : Nat) : Char := Char.ofNat (48 + d)

/-- Decimal digit characters of `n`, most significant first. -/
def natChars (n : Nat) : List Char :=
  if h : n < 10 then [digitChar (n % 10)]
  else natChars (n / 10) ++ [digitChar (n % 10)]
termination_by n
decreasing_by exact Nat.div_lt_self (by omega) (by omega)

/-- Sign and decimal digits of an integer, as printed by `JSON.stringify`. -/
def intChars (n : Int) : List Char :=
  if n < 0 then '-' :: natChars n.natAbs else natChars n.natAbs

/-- Escape one character of a JSON string body. -/
def escChar (c : Char) : List Char :=
  if c = qc then [bs, qc]
  else if c = bs then [bs, bs]
  else if c = Char.ofNat 10 then [bs, 'n']
  else if c = Char.ofNat 13 then [bs, 'r']
  else if c = Char.ofNat 9 then [bs, 't']
  else [c]

/-- The escaped body of a JSON string literal. -/
def strBody : List Char → List Char
  | [] => []
  | c :: cs => escChar c ++ strBody cs

/-- A whole JSON string literal. -/
def strLit (s : String) : List Char := qc :: (strBody s.data ++ [qc])

mutual
/-- Render a JSON value, compactly. -/
def renderJv : Jv → List Char
  | .nullv => 'n' :: 'u' :: 'l' :: 'l' :: []
  | .boolv true => 't' :: 'r' :: 'u' :: 'e' :: []
  | .boolv false => 'f' :: 'a' :: 'l' :: 's' :: 'e' :: []
  | .intv n => intChars n
  | .strv s => strLit s
  | .arrv es => '[' :: (renderItems es ++ [']'])
  | .objv fs => lbr :: (renderFields fs ++ [rbr])

/-- Render comma-separated array elements. -/
def renderItems : List Jv → List Char
  | [] => []
  | [e] => renderJv e
  | e :: e2 :: es => renderJv e ++ ',' :: renderItems (e2 :: es)

/-- Render comma-separated object members. -/
def renderFields : List (String × Jv) → List Char
  | [] => []
  | [(k, v)] => strLit k ++ ':' :: renderJv v
  | (k, v) :: f2 :: fs => strLit k ++ ':' :: renderJv v ++ ',' :: renderFields (f2 :: fs)
end

/-- Is this a decimal digit character? -/
def jdigit (c : Char) : Bool := 48 ≤ c.toNat && c.toNat ≤ 57

/-- JSON insignificant whitespace. -/
def jws (c : Char) : Bool :=
  c = ' ' || c = Char.ofNat 10 || c = Char.ofNat 9 || c = Char.ofNat 13

/-- Skip insignificant whitespace. -/
def dropWs : List Char → List Char
  | [] => []
  | c :: cs => if jws c then dropWs cs else c :: cs

/-- Split off the leading digit run. -/
def grabDigits : List Char → List Char × List Char
  | [] => ([], [])
  | c :: cs =>
    if jdigit c then
      let (d, r) := grabDigits cs
      (c :: d, r)
    else ([], c :: cs)

/-- Numeric value of a digit run. -/
def digitsVal (ds : List Char) : Nat :=
  ds.foldl (fun a c => a * 10 + (c.toNat - 48)) 0

/-- Parse an integer token: optional minus sign and a nonempty digit run. -/
def parseIntTok : List Char → Option (Int × List Char)
  | [] => none
  | c :: cs =>
    if c = '-' then
      match grabDigits cs with
      | ([], _) => none
      | (ds, r) => some (-(digitsVal ds : Int), r)
    else
      match grabDigits (c :: cs) with
      | ([], _) => none
      | (ds, r) => some ((digitsVal ds : Int), r)

/-- Parse a string body after the opening quote, undoing the escapes the
renderer emits. -/
def parseStrBody : List Char → Option (List Char × List Char)
  | [] => none
  | c :: cs =>
    if c = qc then some ([], cs)
    else if c = bs then
      match cs with
      | [] => none
      | e :: cs2 =>
        let dec :=
          if e = qc then some qc
          else if e = bs then some bs
          else if e = 'n' then some (Char.ofNat 10)
          else if e = 'r' then some (Char.ofNat 13)
          else if e = 't' then some (Char.ofNat 9)
          else none
        match dec with
        | some ch =>
          match parseStrBody cs2 with
          | some (body, r) => some (ch :: body, r)
          | none => none
        | none => none
    else
      match parseStrBody cs with
      | some (body, r) => some (c :: body, r)
      | none => none

mutual
/-- Parse one JSON value (fuel-bounded recursion). -/
def parseJv : Nat → List Char → Option (Jv × List Char)
  | 0, _ => none
  | fuel + 1, cs =>
    match dropWs cs with
    | [] => none
    | c :: r =>
      if c = 'n' then
        match r with
        | 'u' :: 'l' :: 'l' :: r2 => some (.nullv, r2)
        | _ => none
      else if c = 't' then
        match r with
        | 'r' :: 'u' :: 'e' :: r2 => some (.boolv true, r2)
        | _ => none
      else if c = 'f' then
        match r with
        | 'a' :: 'l' :: 's' :: 'e' :: r2 => some (.boolv false, r2)
        | _ => none
      else if c = qc then
        match parseStrBody r with
        | some (body, r2) => some (.strv (String.mk body), r2)
        | none => none
      else if c = '[' then
        match dropWs r with
        | c2 :: r2 =>
          if c2 = ']' then some (.arrv [], r2)
          else
            match parseItems fuel (c2 :: r2) with
            | some (es, r3) => some (.arrv es, r3)
            | none => none
        | [] => none
      else if c = lbr then
        match dropWs r with
        | c2 :: r2 =>
          if c2 = rbr then some (.objv [], r2)
          else
            match parseFieldList fuel (c2 :: r2) with
            | some (fs, r3) => some (.objv fs, r3)
            | none => none
        | [] => none
      else if c = '-' || jdigit c then
        match parseIntTok (c :: r) with
        | some (n, r2) => some (.intv n, r2)
        | none => none
      else none

/-- Parse one-or-more comma-separated array elements up to `]`. -/
def parseItems : Nat → List Char → Option (List Jv × List Char)
  | 0, _ => none
  | fuel + 1, cs =>
    match parseJv fuel cs with
    | none => none
    | some (v, r) =>
      match dropWs r with
      | ',' :: r2 =>
        match parseItems fuel (dropWs r2) with
        | some (vs, r3) => some (v :: vs, r3)
        | none => none
      | c2 :: r2 => if c2 = ']' then some ([v], r2) else none
      | [] => none

/-- Parse one-or-more comma-separated object members up to the closing
brace. -/
def parseFieldList : Nat → List Char → Option (List (String × Jv) × List Char)
  | 0, _ => none
  | fuel + 1, cs =>
    match dropWs cs with
    | c :: r =>
      if c = qc then
        match parseStrBody r with
        | some (kb, r1) =>
          match dropWs r1 with
          | ':' :: r2 =>
            match parseJv fuel (dropWs r2) with
            | some (v, r3) =>
              match dropWs r3 with
              | ',' :: r4 =>
                (match parseFieldList fuel (dropWs r4) with
                 | some (fs, r5) => some ((String.mk kb, v) :: fs, r5)
                 | none => none)
              | c5 :: r4 => if c5 = rbr then some ([(String.mk kb, v)], r4) else none
              | [] => none
            | none => none
          | _ => none
        | none => none
      else none
    | [] => none
end

mutual
/-- Fuel needed by `parseJv` on a rendered value. -/
def jvSize : Jv → Nat
  | .arrv es => 1 + itemsSize es
  | .objv fs => 1 + fieldsSize fs
  | _ => 1

/-- Fuel needed by `parseItems` on rendered elements. -/
def itemsSize : List Jv → Nat
  | [] => 1
  | e :: es => 1 + max (jvSize e) (itemsSize es)

/-- Fuel needed by `parseFieldList` on rendered members. -/
def fieldsSize : List (String × Jv) → Nat
  | [] => 1
  | (_, v) :: fs => 1 + max (jvSize v) (fieldsSize fs)
end

/-- Input whose head cannot extend a number token (used to state the codec
round-trip). -/
def noDigitHead : List Char → Bool
  | [] => true
  | c :: _ => !jdigit c

/-- Parse a whole document, as `JSON.parse` (which requires the input to be
fully consumed). -/
def parseDoc (content : String) : Option Jv :=
  match parseJv (content.data.length + 1) content.data with
  | some (v, r) => if dropWs r = [] then some v else none
  | none => none

/-! ## Instruction list to and from JSON -/

/-- The JSON image of an instruction-field value; `none` means the property is
absent from the record, which `JSON.stringify` omits. -/
def jvOfJSVal : JSVal → Option Jv
  | .undefined => none
  | .jsNull => some .nullv
  | .bool b => some (.boolv b)
  | .num n => some (.intv n)
  | .str s => some (.strv s)

/-- Read an instruction-field value back from its JSON image; compound values
cannot inhabit a scalar slot of the wire format. -/
def jsvalOfJv : Jv → Option JSVal
  | .nullv => some .jsNull
  | .boolv b => some (.bool b)
  | .intv n => some (.num n)
  | .strv s => some (.str s)
  | _ => none

/-- The member list contributed by one (possibly absent) property. -/
def fieldOpt (k : String) (v : JSVal) : List (String × Jv) :=
  match jvOfJSVal v with
  | some j => [(k, j)]
  | none => []

/-- The JSON image of a `params` object, in the engine's property order. -/
def jvOfParams (p : JParams) : Jv :=
  .objv (fieldOpt "url" p.url ++
    (fieldOpt "semantic_locator" p.semantic_locator ++
    (fieldOpt "fallback_selector" p.fallback_selector ++
    (fieldOpt "value" p.value ++
    (fieldOpt "assertion" p.assertion ++
    (fieldOpt "timeout" p.timeout ++
    (fieldOpt "selector" p.selector ++
    (fieldOpt "condition" p.condition ++
    (fieldOpt "key" p.key ++
    fieldOpt "direction" p.direction)))))))))

/-- The JSON image of the `params` field. -/
def jvOfParamsV : ParamsV → Option Jv
  | .obj p => some (jvOfParams p)
  | .prim v => jvOfJSVal v

/-- The JSON image of one instruction record. -/
def jvOfInstruction (i : JInstruction) : Jv :=
  .objv (fieldOpt "step_id" i.step_id ++
    (fieldOpt "action_type" i.action_type ++
    ((match jvOfParamsV i.params with
      | some j => [("params", j)]
      | none => []) ++
    (fieldOpt "description" i.description ++
    fieldOpt "_preNavigated" i.preNavigated))))

/-- First-occurrence member lookup, as property access on a parsed object. -/
def lookupField (k : String) : List (String × Jv) → Option Jv
  | [] => none
  | (k2, v) :: fs => if k2 = k then some v else lookupField k fs

/-- Read property `k` of a parsed object as an instruction-field value
(`undefined` when absent or non-scalar). -/
def jsvalField (fs : List (String × Jv)) (k : String) : JSVal :=
  match lookupField k fs with
  | none => .undefined
  | some j =>
    match jsvalOfJv j with
    | some v => v
    | none => .undefined

/-- Rebuild the `params` field from its JSON image. -/
def paramsOfJv : Jv → ParamsV
  | .objv fs =>
    .obj { url := jsvalField fs "url",
           semantic_locator := jsvalField fs "semantic_locator",
           fallback_selector := jsvalField fs "fallback_selector",
           value := jsvalField fs "value",
           assertion := jsvalField fs "assertion",
           timeout := jsvalField fs "timeout",
           selector := jsvalField fs "selector",
           condition := jsvalField fs "condition",
           key := jsvalField fs "key",
           direction := jsvalField fs "direction" }
  | j =>
    .prim (match jsvalOfJv j with
           | some v => v
           | none => .undefined)

/-- Rebuild one instruction record from its JSON image. -/
def instructionOfJv : Jv → Option JInstruction
  | .objv fs =>
    some { step_id := jsvalField fs "step_id",
           action_type := jsvalField fs "action_type",
           params := (match lookupField "params" fs with
                      | some j => paramsOfJv j
                      | none => .prim .undefined),
           description := jsvalField fs "description",
           preNavigated := jsvalField fs "_preNavigated" }
  | _ => none

/-- Rebuild each element of a parsed array in order, failing on the first
non-object element (as iterating the parsed value would). -/
def instructionListOfJv : List Jv → Option (List JInstruction)
  | [] => some []
  | j :: js =>
    match instructionOfJv j with
    | some i =>
      match instructionListOfJv js with
      | some is => some (i :: is)
      | none => none
    | none => none

/-- Rebuild every instruction of a parsed array. -/
def instructionsOfJv : Jv → Option (List JInstruction)
  | .arrv es => instructionListOfJv es
  | _ => none

/-- `JSON.stringify(instructions, null, 2)` (whitespace dropped, see above). -/
def serializeInstructionList (insts : List JInstruction) : String :=
  String.mk (renderJv (.arrv (insts.map jvOfInstruction)))

/-- `JSON.parse` of a cache file followed by the engine's use of the value as
an instruction array. -/
def parseInstructionList (content : String) : Option (List JInstruction) :=
  match parseDoc content with
  | some j => instructionsOfJv j
  | none => none

/-! ## The workflow engine (`src/api/workflow.js`) -/

/-- `getCachePath(prompt)`: the cache directory joined with a file named from
the first 12 hex characters of the md5 of the prompt.  The md5 primitive
(from `node:crypto`) is passed in as `md5hex`. -/
def getCachePath (md5hex : String → String) (prompt : String) : String :=
  ".cache/instructions_" ++ (md5hex prompt).take 12 ++ ".json"

/-- Does a character end the URL-shaped run of `extractUrlFromPrompt`?  The
class excludes whitespace, `)`, `,` and the full-width comma. -/
def urlStopChar (c : Char) : Bool :=
  c = ' ' || c = Char.ofNat 9 || c = Char.ofNat 10 || c = Char.ofNat 11 ||
  c = Char.ofNat 12 || c = Char.ofNat 13 || c = ')' || c = ',' || c.toNat = 0xFF0C

/-- Greedy run of URL characters. -/
def takeUrlChars : List Char → List Char
  | [] => []
  | c :: rest => if urlStopChar c then [] else c :: takeUrlChars rest

/-- Match the literal scheme `https?:\/\/` at this position. -/
def matchUrlPrefix : List Char → Option (List Char × List Char)
  | 'h' :: 't' :: 't' :: 'p' :: 's' :: ':' :: '/' :: '/' :: r =>
    some ("https://".data, r)
  | 'h' :: 't' :: 't' :: 'p' :: ':' :: '/' :: '/' :: r =>
    some ("http://".data, r)
  | _ => none

/-- First match of `/https?:\/\/[^\s),，)]+/` over the prompt. -/
def scanUrl : List Char → Option String
  | [] => none
  | c :: rest =>
    match matchUrlPrefix (c :: rest) with
    | some (scheme, r) =>
      match takeUrlChars r with
      | [] => scanUrl rest
      | b => some (String.mk (scheme ++ b))
    | none => scanUrl rest

/-- `extractUrlFromPrompt(prompt)` from `workflow.js`. -/
def extractUrlFromPrompt (prompt : String) : Option String :=
  scanUrl prompt.data

/-- The cache directory contents: file path to file content. -/
structure CacheStore where
  find : String → Option String

/-- `writeFileSync(path, content)` over the store. -/
def writeCacheFile (σ : CacheStore) (path content : String) : CacheStore :=
  ⟨fun p => if p = path then some content else σ.find p⟩

/-- The cache write of `runWorkflow` (cache miss, `useCache`): serialize the
current instruction list to the prompt's cache path. -/
def writeCacheEntry (md5hex : String → String) (σ : CacheStore) (prompt : String)
    (instructions : List JInstruction) : CacheStore :=
  writeCacheFile σ (getCachePath md5hex prompt) (serializeInstructionList instructions)

/-- The cache read of `runWorkflow` (cache hit): load and parse the file at
the prompt's cache path. -/
def readCacheEntry (md5hex : String → String) (σ : CacheStore) (prompt : String) :
    Option (List JInstruction) :=
  match σ.find (getCachePath md5hex prompt) with
  | some content => parseInstructionList content
  | none => none

/-- `instructions[0]?.action_type === 'navigate'`. -/
def firstIsNavigate : List JInstruction → Bool
  | [] => false
  | i :: _ => i.action_type == .str "navigate"

/-- `instructions[0]._preNavigated = true`. -/
def markFirstPreNavigated : List JInstruction → List JInstruction
  | [] => []
  | i :: rest => { i with preNavigated := .bool true } :: rest

/-- The plan-acquisition phase of `runWorkflow(prompt, context, options)`:
either load, parse and (when the first step is a navigate with a URL and a
page is present) pre-navigate-mark the cached list, or take the external
planner's list `planned`, mark its first step when a URL was extracted from
the prompt and a page is present, and persist the (current) list.  Returns
the store afterwards and the instruction list handed to the stream runner
(`none` when `JSON.parse` of a cached entry throws, which `runWorkflow`
re-throws). -/
def workflowGetInstructions (md5hex : String → String) (σ : CacheStore)
    (prompt : String) (planned : List JInstruction) (hasPage useCache : Bool) :
    CacheStore × Option (List JInstruction) :=
  let cachePath := getCachePath md5hex prompt
  if useCache && (σ.find cachePath).isSome then
    match σ.find cachePath with
    | some content =>
      match parseInstructionList content with
      | some instructions =>
        let marked :=
          if firstIsNavigate instructions && hasPage &&
              (match instructions with
               | i :: _ => (i.params.url).truthy
               | [] => false) then
            markFirstPreNavigated instructions
          else instructions
        (σ, some marked)
      | none => (σ, none)
    | none => (σ, none)
  else
    let url := extractUrlFromPrompt prompt
    let instructions :=
      if url.isSome && hasPage && firstIsNavigate planned then
        markFirstPreNavigated planned
      else planned
    let σ2 := if useCache then
        writeCacheFile σ cachePath (serializeInstructionList instructions)
      else σ
    (σ2, some instructions)

/-! ## Concrete fixtures for witnesses -/

/-- A quiescent page: no elements match anything, every primitive succeeds,
the page is empty. -/
def tPage : Page :=
  { countOf := fun _ => 0, visibleCountOf := fun _ => 0, isVisibleOf := fun _ => false,
    attachedWithin := fun _ _ => false, visibleWithin := fun _ _ => false,
    gotoErr := fun _ => none, clickErr := fun _ => none, dispatchClickErr := fun _ => none,
    fillErr := fun _ _ => none, evalSetValueErr := fun _ _ => none,
    selectErr := fun _ _ => none, hoverErr := fun _ => none, keyPressErr := fun _ => none,
    loadStateErr := fun _ => none, scrollEvalErr := fun _ => none,
    content := "", innerTextBody := .ok "" }

/-- A resolver that always judges `true`. -/
def tCtx : Ctx := { page := tPage, ai := fun _ => .ok (.bool true) }

/-- A page holding one attached but hidden element for `#hidden`, and nothing
else. -/
def hPage : Page :=
  { tPage with countOf := fun s => if s = "#hidden" then 1 else 0 }

/-- A page whose body text contains the word Welcome. -/
def wPage : Page :=
  { tPage with content := "<body>Welcome!</body>", innerTextBody := .ok "Welcome!" }

/-- A concrete planner reply: a single navigate step. -/
def cPlanned : List JInstruction :=
  [{ step_id := .num 1, action_type := .str "navigate",
     params := .obj { url := .str "https://example.com" },
     description := .str "open the page" }]

/-- A concrete prompt containing a URL. -/
def cPrompt : String := "open https://example.com and search for x"

/-- A concrete stand-in digest function (md5 itself lives in `node:crypto`;
the engine only requires that both write and read apply the same function). -/
def cHash : String → String := fun _ => "0123456789abcdef0123456789abcdef"

/-- The empty cache directory. -/
def emptyCache : CacheStore := ⟨fun _ => none⟩

/-- A step that succeeds on `tPage` (a key press). -/
def iOk1 : JInstruction :=
  { step_id := .num 1, action_type := .str "press",
    params := .obj { key := .str "Enter" }, description := .str "press enter" }

/-- A step that fails on any context (unsupported action type). -/
def iBad : JInstruction :=
  { step_id := .num 2, action_type := .str "jump",
    params := .obj {}, description := .str "unsupported step" }

/-- A second succeeding step. -/
def iOk2 : JInstruction :=
  { step_id := .num 3, action_type := .str "press",
    params := .obj { key := .str "Tab" }, description := .str "press tab" }

/-! ## Stream-runner lemmas -/

theorem runStream_cons_succ (ctx : Ctx) (so : Bool) (sd : Nat) (i : JInstruction)
    (rest : List JInstruction) (h : (executeInstruction ctx i).1.success = true) :
    runStream ctx so sd (i :: rest)
      = (stepResultOf ctx i :: (runStream ctx so sd rest).1,
         (runStream ctx so sd rest).2.1 + 1,
         (runStream ctx so sd rest).2.2.1,
         (executeInstruction ctx i).2 ++ delayOps sd ++ (runStream ctx so sd rest).2.2.2) := by
  simp only [runStream, h, if_true]

theorem runStream_cons_fail_stop (ctx : Ctx) (sd : Nat) (i : JInstruction)
    (rest : List JInstruction) (h : (executeInstruction ctx i).1.success = false) :
    runStream ctx true sd (i :: rest)
      = ([stepResultOf ctx i], 0, 1, (executeInstruction ctx i).2) := by
  simp only [runStream, h]
  rfl

theorem runStream_cons_fail_cont (ctx : Ctx) (sd : Nat) (i : JInstruction)
    (rest : List JInstruction) (h : (executeInstruction ctx i).1.success = false) :
    runStream ctx false sd (i :: rest)
      = (stepResultOf ctx i :: (runStream ctx false sd rest).1,
         (runStream ctx false sd rest).2.1,
         (runStream ctx false sd rest).2.2.1 + 1,
         (executeInstruction ctx i).2 ++ delayOps sd ++ (runStream ctx false sd rest).2.2.2) := by
  simp only [runStream, h]
  rcases runStream ctx false sd rest with ⟨rs, s, f, t⟩
  rfl

/-- The two counters always add up to the number of pushed results, which
never exceeds the input length. -/
theorem runStream_counts (ctx : Ctx) (so : Bool) (sd : Nat) :
    ∀ l : List JInstruction,
      (runStream ctx so sd l).2.1 + (runStream ctx so sd l).2.2.1
          = (runStream ctx so sd l).1.length
        ∧ (runStream ctx so sd l).1.length ≤ l.length := by
  intro l
  induction l with
  | nil => simp [runStream]
  | cons i rest ih =>
    by_cases hs : (executeInstruction ctx i).1.success
    · rw [runStream_cons_succ ctx so sd i rest hs]
      obtain ⟨h1, h2⟩ := ih
      constructor
      · simp only [List.length_cons]; omega
      · simp only [List.length_cons]; omega
    · cases so with
      | true =>
        rw [runStream_cons_fail_stop ctx sd i rest (by simpa using hs)]
        simp
      | false =>
        rw [runStream_cons_fail_cont ctx sd i rest (by simpa using hs)]
        obtain ⟨h1, h2⟩ := ih
        constructor
        · simp only [List.length_cons]; omega
        · simp only [List.length_cons]; omega

/-- Running a prefix of succeeding instructions prepends their results,
delays included, and then continues. -/
theorem runStream_ok_prefix (ctx : Ctx) (so : Bool) (sd : Nat) :
    ∀ (pre rest : List JInstruction),
      (∀ i ∈ pre, (executeInstruction ctx i).1.success = true) →
      runStream ctx so sd (pre ++ rest)
        = (pre.map (stepResultOf ctx) ++ (runStream ctx so sd rest).1,
           pre.length + (runStream ctx so sd rest).2.1,
           (runStream ctx so sd rest).2.2.1,
           pre.flatMap (fun i => (executeInstruction ctx i).2 ++ delayOps sd)
             ++ (runStream ctx so sd rest).2.2.2) := by
  intro pre
  induction pre with
  | nil => intro rest _; simp
  | cons i pre2 ih =>
    intro rest hok
    have hi : (executeInstruction ctx i).1.success = true := hok i (by simp)
    have htail : ∀ j ∈ pre2, (executeInstruction ctx j).1.success = true :=
      fun j hj => hok j (by simp [hj])
    rw [List.cons_append, runStream_cons_succ ctx so sd i (pre2 ++ rest) hi, ih rest htail]
    simp [List.flatMap_cons, Nat.add_assoc, Nat.add_comm, Nat.add_left_comm]

/-- With `stopOnError=false` every instruction is executed and reported. -/
theorem runStream_no_stop (ctx : Ctx) (sd : Nat) :
    ∀ l : List JInstruction,
      (runStream ctx false sd l).1 = l.map (stepResultOf ctx) := by
  intro l
  induction l with
  | nil => simp [runStream]
  | cons i rest ih =>
    by_cases hs : (executeInstruction ctx i).1.success
    · rw [runStream_cons_succ ctx false sd i rest hs]; simp [ih]
    · rw [runStream_cons_fail_cont ctx sd i rest (by simpa using hs)]; simp [ih]

/-- C1 helper: the summary invariants of `executeInstructionStream`. -/
theorem stream_summary_shape (ctx : Ctx) (so : Bool) (sd : Nat)
    (instructions : List JInstruction) :
    (executeInstructionStream ctx instructions so sd).summary.total = instructions.length
    ∧ ((executeInstructionStream ctx instructions so sd).summary.allPassed = true
        ↔ (executeInstructionStream ctx instructions so sd).summary.fail = 0
          ∧ (executeInstructionStream ctx instructions so sd).summary.success
              = (executeInstructionStream ctx instructions so sd).summary.total)
    ∧ ((executeInstructionStream ctx instructions so sd).results.length
          < instructions.length
        → (executeInstructionStream ctx instructions so sd).summary.allPassed = false) := by
  have hc := runStream_counts ctx so sd instructions
  simp only [executeInstructionStream]
  rcases hr : runStream ctx so sd instructions with ⟨rs, s, f, t⟩
  rw [hr] at hc
  simp only at hc
  refine ⟨by simp, by simp, ?_⟩
  intro hlt
  simp only at hlt
  by_contra hap
  simp only [Bool.not_eq_false, Bool.and_eq_true, beq_iff_eq] at hap
  omega

/-! ## Claims about the stream runner and the executor -/

/-- C1: for every run of `executeInstructionStream`, `summary.total` is the
input length and `allPassed` holds exactly when `fail = 0` and
`success = total`; consequently an early stop (fewer results than
instructions) forces `allPassed = false` even if every executed step
succeeded. -/
theorem stream_summary_total_allPassed (ctx : Ctx) (so : Bool) (sd : Nat)
    (instructions : List JInstruction) :
    (executeInstructionStream ctx instructions so sd).summary.total = instructions.length
    ∧ ((executeInstructionStream ctx instructions so sd).summary.allPassed = true
        ↔ (executeInstructionStream ctx instructions so sd).summary.fail = 0
          ∧ (executeInstructionStream ctx instructions so sd).summary.success
              = (executeInstructionStream ctx instructions so sd).summary.total)
    ∧ ((executeInstructionStream ctx instructions so sd).results.length
          < instructions.length
        → (executeInstructionStream ctx instructions so sd).summary.allPassed = false) :=
  stream_summary_shape ctx so sd instructions

/-- C1 witness: a concrete two-step stream whose first step fails under
`stopOnError` stops early and reports `allPassed = false`. -/
theorem stream_summary_total_allPassed_witness :
    (executeInstructionStream tCtx [iBad, iOk1] true 0).results.length < 2
    ∧ (executeInstructionStream tCtx [iBad, iOk1] true 0).summary.allPassed = false :=
  ⟨by decide, (stream_summary_total_allPassed tCtx true 0 [iBad, iOk1]).2.2 (by decide)⟩

/-- C2: with `stopOnError = true` and the first failure at position `k`
(`pre` of succeeding steps, then `bad`), the runner reports exactly the
results of positions `1..k` in input order, each augmented with the step's
`step_id` and `description`, and performs no operation of any later
instruction; with `stopOnError = false` every instruction is executed and
reported, one result per instruction, in order. -/
theorem stream_stopOnError_results (ctx : Ctx) (sd : Nat)
    (pre : List JInstruction) (bad : JInstruction) (post : List JInstruction)
    (hpre : ∀ i ∈ pre, (executeInstruction ctx i).1.success = true)
    (hbad : (executeInstruction ctx bad).1.success = false) :
    ((executeInstructionStream ctx (pre ++ bad :: post) true sd).results
        = (pre ++ [bad]).map (stepResultOf ctx)
      ∧ (executeInstructionStream ctx (pre ++ bad :: post) true sd).trace
        = pre.flatMap (fun i => (executeInstruction ctx i).2 ++ delayOps sd)
            ++ (executeInstruction ctx bad).2)
    ∧ ∀ l : List JInstruction,
        (executeInstructionStream ctx l false sd).results = l.map (stepResultOf ctx) := by
  have h1 := runStream_ok_prefix ctx true sd pre (bad :: post) hpre
  rw [runStream_cons_fail_stop ctx sd bad post hbad] at h1
  refine ⟨⟨?_, ?_⟩, ?_⟩
  · simp [executeInstructionStream, h1, List.map_append]
  · simp [executeInstructionStream, h1]
  · intro l
    have h2 := runStream_no_stop ctx sd l
    simp only [executeInstructionStream]
    rcases hr : runStream ctx false sd l with ⟨rs, s, f, t⟩
    rw [hr] at h2
    exact h2

/-- C2 witness: the spec's three-step example (step 2 fails,
`stopOnError = true`) yields exactly the first two augmented results. -/
theorem stream_stopOnError_results_witness :
    (executeInstructionStream tCtx [iOk1, iBad, iOk2] true 0).results
        = ([iOk1, iBad]).map (stepResultOf tCtx)
    ∧ (executeInstructionStream tCtx [iOk1, iBad, iOk2] true 0).results.length = 2 :=
  ⟨((stream_stopOnError_results tCtx 0 [iOk1] iBad [iOk2]
      (by decide) (by decide)).1).1, by decide⟩

/-- C3: `executeInstruction` never throws: a dispatch error (any handler
exception, including the unsupported-action throw) becomes
`{success: false, error: message}` with the operations performed so far, and
every failed result carries an error message. -/
theorem executeInstruction_never_raises (ctx : Ctx) (i : JInstruction) :
    (∀ msg ops, i.preNavigated.truthy = false →
      dispatchAction ctx i = (.error msg, ops) →
      executeInstruction ctx i
        = ({ success := false, result := none, error := some msg, elapsed := 0 }, ops))
    ∧ (i.preNavigated.truthy = false → isSupportedActionVal i.action_type = false →
        executeInstruction ctx i
          = ({ success := false, result := none,
               error := some ("不支持的指令类型: " ++ i.action_type.display),
               elapsed := 0 }, []))
    ∧ ((executeInstruction ctx i).1.success = false →
        ∃ msg, (executeInstruction ctx i).1.error = some msg) := by
  refine ⟨?_, ?_, ?_⟩
  · intro msg ops hpre hd
    simp [executeInstruction, hpre, hd]
  · intro hpre hsup
    have hdef : dispatchAction ctx i
        = (.error ("不支持的指令类型: " ++ i.action_type.display), []) := by
      cases haty : i.action_type with
      | str s =>
        rw [haty] at hsup
        simp only [isSupportedActionVal, SUPPORTED_ACTIONS, List.mem_cons,
          List.not_mem_nil, or_false, decide_eq_false_iff_not] at hsup
        push_neg at hsup
        rw [dispatchAction.eq_def, haty]
        split <;> simp_all
      | undefined => rw [dispatchAction.eq_def, haty]
      | jsNull => rw [dispatchAction.eq_def, haty]
      | bool b => rw [dispatchAction.eq_def, haty]
      | num n => rw [dispatchAction.eq_def, haty]
    simp [executeInstruction, hpre, hdef]
  · by_cases hpre : i.preNavigated.truthy
    · simp [executeInstruction, hpre]
    · rcases hd : dispatchAction ctx i with ⟨res, ops⟩
      cases res with
      | ok v => simp [executeInstruction, hpre, hd]
      | error e => simp [executeInstruction, hpre, hd]

/-- C3 witness: dispatching the unsupported action type `jump` produces a
failed result carrying the thrown message, with nothing propagated. -/
theorem executeInstruction_never_raises_witness :
    executeInstruction tCtx iBad
      = ({ success := false, result := none,
           error := some "不支持的指令类型: jump", elapsed := 0 }, []) :=
  (executeInstruction_never_raises tCtx iBad).2.1 (by decide) (by decide)

/-- C4: a truthy pre-resolved (`_preNavigated`) flag makes
`executeInstruction` return success immediately, with no handler dispatched
and no browser or resolver operation performed. -/
theorem executeInstruction_preResolved_skips (ctx : Ctx) (i : JInstruction)
    (h : i.preNavigated.truthy = true) :
    executeInstruction ctx i
      = ({ success := true, result := some (.str "pre-navigated"),
           error := none, elapsed := 0 }, []) := by
  simp [executeInstruction, h]

/-- C4 witness: a concrete pre-navigated navigate step is skipped with
success. -/
theorem executeInstruction_preResolved_skips_witness :
    executeInstruction tCtx
        { step_id := .num 1, action_type := .str "navigate",
          params := .obj { url := .str "https://example.com" },
          description := .str "open", preNavigated := .bool true }
      = ({ success := true, result := some (.str "pre-navigated"),
           error := none, elapsed := 0 }, []) :=
  executeInstruction_preResolved_skips tCtx _ (by decide)

/-! ## The validator claim -/

/-- C5: `validateInstruction` reports `valid` exactly when its error list is
empty; every missing or invalid required field (top-level, and per-action
once `params` is an object and `action_type` is set) contributes its own
identifying message, simultaneously with all other violations; and for each
of the nine supported action types a minimally valid instruction passes. -/
theorem validateInstruction_spec (i : JInstruction) :
    ((validateInstruction i).valid = true ↔ (validateInstruction i).errors = [])
    ∧ (i.step_id.isNumber = false →
        ("step_id 必须是数字, 当前值: " ++ i.step_id.display) ∈ (validateInstruction i).errors)
    ∧ (i.action_type.truthy = false →
        "action_type 不能为空" ∈ (validateInstruction i).errors)
    ∧ (i.action_type.truthy = true → isSupportedActionVal i.action_type = false →
        ("不支持的 action_type: " ++ i.action_type.display ++
          ", 支持的类型: " ++ joinStrings ", " SUPPORTED_ACTIONS)
          ∈ (validateInstruction i).errors)
    ∧ ((i.params.truthy && i.params.isObjectType) = false →
        "params 必须是一个对象" ∈ (validateInstruction i).errors)
    ∧ ((i.description.truthy && i.description.isString) = false →
        "description 必须是非空字符串" ∈ (validateInstruction i).errors)
    ∧ (∀ p : JParams, i.params = .obj p →
        (i.action_type = .str "navigate" →
          (p.url.truthy && p.url.isString) = false →
          "navigate 指令必须包含有效的 url 参数" ∈ (validateInstruction i).errors)
        ∧ (i.action_type = .str "click" →
            p.semantic_locator.truthy = false → p.fallback_selector.truthy = false →
            "click 指令必须包含 semantic_locator 或 fallback_selector"
              ∈ (validateInstruction i).errors)
        ∧ (i.action_type = .str "hover" →
            p.semantic_locator.truthy = false → p.fallback_selector.truthy = false →
            "hover 指令必须包含 semantic_locator 或 fallback_selector"
              ∈ (validateInstruction i).errors)
        ∧ (i.action_type = .str "input" →
            (p.semantic_locator.truthy = false → p.fallback_selector.truthy = false →
              "input 指令必须包含 semantic_locator 或 fallback_selector"
                ∈ (validateInstruction i).errors)
            ∧ (p.value = .undefined ∨ p.value = .jsNull →
              "input 指令必须包含 value 参数" ∈ (validateInstruction i).errors))
        ∧ (i.action_type = .str "verify" →
            (p.assertion.truthy && p.assertion.isString) = false →
            "verify 指令必须包含有效的 assertion 参数" ∈ (validateInstruction i).errors)
        ∧ (i.action_type = .str "wait" →
            p.timeout.truthy = false → p.selector.truthy = false →
            p.condition.truthy = false →
            "wait 指令必须包含 timeout、selector 或 condition 参数之一"
              ∈ (validateInstruction i).errors)
        ∧ (i.action_type = .str "select" →
            (p.semantic_locator.truthy = false → p.fallback_selector.truthy = false →
              "select 指令必须包含 semantic_locator 或 fallback_selector"
                ∈ (validateInstruction i).errors)
            ∧ (p.value.truthy = false →
              "select 指令必须包含 value 参数" ∈ (validateInstruction i).errors))
        ∧ (i.action_type = .str "press" →
            (p.key.truthy && p.key.isString) = false →
            "press 指令必须包含有效的 key 参数" ∈ (validateInstruction i).errors)
        ∧ (i.action_type = .str "scroll" →
            p.direction.truthy = false →
            "scroll 指令必须包含 direction 参数 (up/down/top/bottom)"
              ∈ (validateInstruction i).errors))
    ∧ ((validateInstruction
          { step_id := .num 1, action_type := .str "navigate",
            params := .obj { url := .str "https://x" },
            description := .str "d" }).valid = true
      ∧ (validateInstruction
          { step_id := .num 1, action_type := .str "click",
            params := .obj { semantic_locator := .str "the button" },
            description := .str "d" }).valid = true
      ∧ (validateInstruction
          { step_id := .num 1, action_type := .str "input",
            params := .obj { fallback_selector := .str "#kw", value := .str "hi" },
            description := .str "d" }).valid = true
      ∧ (validateInstruction
          { step_id := .num 1, action_type := .str "verify",
            params := .obj { assertion := .str "shows ok" },
            description := .str "d" }).valid = true
      ∧ (validateInstruction
          { step_id := .num 1, action_type := .str "wait",
            params := .obj { timeout := .num 500 },
            description := .str "d" }).valid = true
      ∧ (validateInstruction
          { step_id := .num 1, action_type := .str "select",
            params := .obj { fallback_selector := .str "#sel", value := .str "a" },
            description := .str "d" }).valid = true
      ∧ (validateInstruction
          { step_id := .num 1, action_type := .str "hover",
            params := .obj { semantic_locator := .str "the menu" },
            description := .str "d" }).valid = true
      ∧ (validateInstruction
          { step_id := .num 1, action_type := .str "press",
            params := .obj { key := .str "Enter" },
            description := .str "d" }).valid = true
      ∧ (validateInstruction
          { step_id := .num 1, action_type := .str "scroll",
            params := .obj { direction := .str "down" },
            description := .str "d" }).valid = true) := by
  refine ⟨?_, ?_, ?_, ?_, ?_, ?_, ?_, by decide⟩
  · have hv : (validateInstruction i).valid = (validateInstruction i).errors.isEmpty := rfl
    constructor
    · intro h
      rw [hv] at h
      exact List.isEmpty_iff.mp h
    · intro h
      rw [hv, h]
      rfl
  · intro h
    simp [validateInstruction, h]
  · intro h
    simp [validateInstruction, h]
  · intro h1 h2
    simp [validateInstruction, h1, h2]
  · intro h
    simp [validateInstruction, h]
  · intro h
    simp [validateInstruction, h]
  · intro p hp
    have base : ∀ (s : String) (msg : String),
        i.action_type = .str s → s ≠ "" →
        msg ∈ validateActionParams s i.params →
        msg ∈ (validateInstruction i).errors := by
      intro s msg ha hs hmem
      simp only [validateInstruction]
      apply List.mem_append_right
      simp only [hp, ha]
      simp only [ParamsV.truthy, JSVal.truthy, Bool.and_self, ne_eq]
      rw [if_pos]
      · simpa [hp] using hmem
      · simp [hs]
    refine ⟨?_, ?_, ?_, ?_, ?_, ?_, ?_, ?_, ?_⟩
    · intro ha h
      refine base _ _ ha (by decide) ?_
      simp [validateActionParams, hp, h, ParamsV.url]
    · intro ha h1 h2
      refine base _ _ ha (by decide) ?_
      simp [validateActionParams, hp, h1, h2, ParamsV.semantic_locator,
        ParamsV.fallback_selector]
    · intro ha h1 h2
      refine base _ _ ha (by decide) ?_
      simp [validateActionParams, hp, h1, h2, ParamsV.semantic_locator,
        ParamsV.fallback_selector]
    · intro ha
      constructor
      · intro h1 h2
        refine base _ _ ha (by decide) ?_
        simp [validateActionParams, hp, h1, h2, ParamsV.semantic_locator,
          ParamsV.fallback_selector]
      · intro h
        refine base _ _ ha (by decide) ?_
        simp [validateActionParams, hp, h, ParamsV.value]
    · intro ha h
      refine base _ _ ha (by decide) ?_
      simp [validateActionParams, hp, h, ParamsV.assertion]
    · intro ha h1 h2 h3
      refine base _ _ ha (by decide) ?_
      simp [validateActionParams, hp, h1, h2, h3, ParamsV.timeout,
        ParamsV.selector, ParamsV.condition]
    · intro ha
      constructor
      · intro h1 h2
        refine base _ _ ha (by decide) ?_
        simp [validateActionParams, hp, h1, h2, ParamsV.semantic_locator,
          ParamsV.fallback_selector]
      · intro h
        refine base _ _ ha (by decide) ?_
        simp [validateActionParams, hp, h, ParamsV.value]
    · intro ha h
      refine base _ _ ha (by decide) ?_
      simp [validateActionParams, hp, h, ParamsV.key]
    · intro ha h
      refine base _ _ ha (by decide) ?_
      simp [validateActionParams, hp, h, ParamsV.direction]

/-- C5 witness: a concrete instruction violating three rules at once
(non-numeric `step_id`, navigate without `url`, short description check) has
all of them reported together, and the click minimal instance is valid. -/
theorem validateInstruction_spec_witness :
    (("step_id 必须是数字, 当前值: undefined"
        ∈ (validateInstruction
            { action_type := .str "navigate", params := .obj {},
              description := .str "d" }).errors)
      ∧ ("navigate 指令必须包含有效的 url 参数"
        ∈ (validateInstruction
            { action_type := .str "navigate", params := .obj {},
              description := .str "d" }).errors))
    ∧ ((validateInstruction
          { step_id := .num 1, action_type := .str "click",
            params := .obj { semantic_locator := .str "the button" },
            description := .str "d" }).valid = true) := by
  have h := validateInstruction_spec
    { action_type := .str "navigate", params := .obj {}, description := .str "d" }
  refine ⟨⟨h.2.1 (by decide), ?_⟩, (h.2.2.2.2.2.2.2).2.1⟩
  exact ((h.2.2.2.2.2.2.1 {} (by decide)).1 (by decide) (by decide))

/-! ## Handler claims -/

/-- C6: when the click instruction carries a truthy `fallback_selector`
matching an attached element (and the deterministic primitives themselves do
not throw), the handler performs the deterministic action — a native click if
a visible match exists, otherwise a direct event dispatch on the
present-but-hidden element — and never invokes the semantic resolver; and
when neither a usable fallback selector (absent, or matching nothing) nor a
semantic locator is available, the handler throws the resolution error. -/
theorem handleClick_two_tier (page : Page) (ai : String → Except String JSVal)
    (params : ParamsV)
    (hfb : params.fallback_selector.truthy = true)
    (hattached : page.countOf params.fallback_selector.display > 0)
    (hclick : page.clickErr params.fallback_selector.display = none)
    (hdispatch : page.dispatchClickErr params.fallback_selector.display = none) :
    ((handleClick page ai params).1 = .ok .undefined
      ∧ (page.visibleCountOf params.fallback_selector.display > 0 →
          (handleClick page ai params).2
            = [.waitAttached params.fallback_selector.display 5000,
               .clickNative params.fallback_selector.display])
      ∧ (page.visibleCountOf params.fallback_selector.display = 0 →
          (handleClick page ai params).2
            = [.waitAttached params.fallback_selector.display 5000,
               .dispatchClick params.fallback_selector.display])
      ∧ ∀ cmd, Op.aiCall cmd ∉ (handleClick page ai params).2)
    ∧ ∀ params2 : ParamsV,
        (params2.fallback_selector.truthy = false
          ∨ (page.countOf params2.fallback_selector.display = 0
             ∧ page.visibleCountOf params2.fallback_selector.display = 0)) →
        params2.semantic_locator.truthy = false →
        (handleClick page ai params2).1
          = .error "点击操作失败: Playwright 和 AI 均不可用" := by
  constructor
  · rcases Nat.eq_zero_or_pos (page.visibleCountOf params.fallback_selector.display)
      with hv | hv
    · refine ⟨?_, ?_, ?_, ?_⟩ <;>
        simp [handleClick, hfb, hv, hattached, hdispatch, Nat.pos_iff_ne_zero]
    · refine ⟨?_, ?_, ?_, ?_⟩ <;>
        simp [handleClick, hfb, hv, Nat.pos_iff_ne_zero, hclick] <;> omega
  · intro params2 hno hsl
    rcases hno with hno | ⟨hc, hv⟩
    · simp [handleClick, hno, clickAiTier, hsl]
    · simp [handleClick, hc, hv, clickAiTier, hsl]
      split <;> rfl

/-- C6 witness: on `hPage`, clicking with `fallback_selector = "#hidden"`
performs the forced dispatch with no resolver call, and with no selector and
no locator the resolution error is thrown. -/
theorem handleClick_two_tier_witness :
    ((handleClick hPage tCtx.ai (.obj { fallback_selector := .str "#hidden" })).2
        = [.waitAttached "#hidden" 5000, .dispatchClick "#hidden"]
      ∧ ∀ cmd, Op.aiCall cmd
          ∉ (handleClick hPage tCtx.ai (.obj { fallback_selector := .str "#hidden" })).2)
    ∧ (handleClick hPage tCtx.ai (.obj {})).1
        = .error "点击操作失败: Playwright 和 AI 均不可用" := by
  have h := handleClick_two_tier hPage tCtx.ai (.obj { fallback_selector := .str "#hidden" })
    (by decide) (by decide) (by decide) (by decide)
  exact ⟨⟨h.1.2.2.1 (by decide), h.1.2.2.2⟩, h.2 (.obj {}) (.inl (by decide)) (by decide)⟩

/-- C7: the verify handler first extracts quoted keywords from the assertion;
when at least one occurs in the page text or markup it passes (returning
`true`) without any resolver call; otherwise — no keyword found, or no quoted
substring at all — it performs exactly one resolver call, fails with the
assertion-failure message exactly when the resolver answers a strict `false`,
propagates a resolver throw, and passes with any other resolver answer. -/
theorem handleVerify_keyword_first (page : Page) (ai : String → Except String JSVal)
    (params : ParamsV) :
    (extractKeywordsFromAssertion params.assertion.display ≠ [] →
      (extractKeywordsFromAssertion params.assertion.display).any
          (fun kw => strIncludes (match page.innerTextBody with
                                  | .ok t => t
                                  | .error _ => page.content) kw
            || strIncludes page.content kw) = true →
      handleVerify page ai params = (.ok (.bool true), []))
    ∧ ((extractKeywordsFromAssertion params.assertion.display = []
        ∨ (extractKeywordsFromAssertion params.assertion.display).any
            (fun kw => strIncludes (match page.innerTextBody with
                                    | .ok t => t
                                    | .error _ => page.content) kw
              || strIncludes page.content kw) = false) →
      (handleVerify page ai params).2
          = [.aiCall ("Verify that " ++ params.assertion.display)]
      ∧ (∀ e, ai ("Verify that " ++ params.assertion.display) = .error e →
          (handleVerify page ai params).1 = .error e)
      ∧ (ai ("Verify that " ++ params.assertion.display) = .ok (.bool false) →
          (handleVerify page ai params).1
            = .error ("断言失败: " ++ params.assertion.display))
      ∧ (∀ v, ai ("Verify that " ++ params.assertion.display) = .ok v →
          v ≠ .bool false → (handleVerify page ai params).1 = .ok v)) := by
  constructor
  · intro hk hfound
    simp [handleVerify, List.length_pos, hk, hfound]
  · intro hmiss
    have hver : handleVerify page ai params
        = verifyAiTier ai params.assertion.display := by
      rcases hmiss with hk | hnf
      · simp [handleVerify, hk]
      · by_cases hk : extractKeywordsFromAssertion params.assertion.display = []
        · simp [handleVerify, hk]
        · simp [handleVerify, List.length_pos, hk, hnf]
    rw [hver]
    refine ⟨?_, ?_, ?_, ?_⟩
    · rcases hai : ai ("Verify that " ++ params.assertion.display) with e | v
      · simp [verifyAiTier, hai]
      · by_cases hv : v = .bool false <;> simp [verifyAiTier, hai, hv]
    · intro e hai
      simp [verifyAiTier, hai]
    · intro hai
      simp [verifyAiTier, hai]
    · intro v hai hv
      simp [verifyAiTier, hai, hv]

/-- C7 witness: the spec's example — an assertion quoting Welcome on a page
containing it passes without a resolver call, and an assertion with no quoted
substring performs the resolver call. -/
theorem handleVerify_keyword_first_witness :
    handleVerify wPage tCtx.ai
        (.obj { assertion := .str "the page shows \"Welcome\"" })
      = (.ok (.bool true), [])
    ∧ (handleVerify wPage tCtx.ai (.obj { assertion := .str "no quotes at all" })).2
      = [.aiCall "Verify that no quotes at all"] :=
  ⟨(handleVerify_keyword_first wPage tCtx.ai
      (.obj { assertion := .str "the page shows \"Welcome\"" })).1 (by decide) (by decide),
   ((handleVerify_keyword_first wPage tCtx.ai
      (.obj { assertion := .str "no quotes at all" })).2 (.inl (by decide))).1⟩

/-- C8: a wait instruction with a selector that never becomes visible within
the bounded timeout `min(timeout || 5000, 3000)` does not fail or throw: the
handler degrades to the `domcontentloaded` wait plus a fixed 500ms pause and
returns success. -/
theorem handleWait_degrades (page : Page) (params : ParamsV)
    (hsel : params.selector.truthy = true)
    (htimeout : page.visibleWithin params.selector.display
        (min (if params.timeout.truthy then jsNumVal params.timeout else 5000) 3000)
      = false) :
    handleWait page params
      = (.ok .undefined,
         [.waitVisible params.selector.display
            (min (if params.timeout.truthy then jsNumVal params.timeout else 5000) 3000),
          .waitLoadState "domcontentloaded", .sleep 500]) := by
  simp [handleWait, hsel, htimeout]

/-- C8 witness: waiting for `#never` on the quiescent page returns success
through the degraded path. -/
theorem handleWait_degrades_witness :
    handleWait tPage (.obj { selector := .str "#never", timeout := .num 10000 })
      = (.ok .undefined, [.waitVisible "#never" 3000,
                      .waitLoadState "domcontentloaded", .sleep 500]) :=
  handleWait_degrades tPage (.obj { selector := .str "#never", timeout := .num 10000 })
    (by decide) (by decide)

/-! ## JSON codec lemmas: numbers -/

theorem digitChar_spec : ∀ d, d < 10 →
    jdigit (digitChar d) = true ∧ (digitChar d).toNat = 48 + d := by decide

theorem ne_chr {c d : Char} (h : c.toNat ≠ d.toNat) : c ≠ d :=
  fun e => h (congrArg Char.toNat e)

theorem jdigit_bounds {c : Char} (h : jdigit c = true) :
    48 ≤ c.toNat ∧ c.toNat ≤ 57 := by
  simpa [jdigit] using h

theorem natChars_digits (n : Nat) : ∀ c ∈ natChars n, jdigit c = true := by
  induction n using Nat.strong_induction_on with
  | _ n ih =>
    rw [natChars.eq_def]
    by_cases h : n < 10
    · simp only [dif_pos h, List.mem_singleton]
      rintro c rfl
      exact (digitChar_spec _ (Nat.mod_lt _ (by omega))).1
    · simp only [dif_neg h]
      intro c hc
      rcases List.mem_append.mp hc with hc | hc
      · exact ih (n / 10) (Nat.div_lt_self (by omega) (by omega)) c hc
      · rw [List.mem_singleton] at hc
        subst hc
        exact (digitChar_spec _ (Nat.mod_lt _ (by omega))).1

theorem natChars_ne_nil (n : Nat) : natChars n ≠ [] := by
  rw [natChars.eq_def]
  by_cases h : n < 10 <;> simp [h]

theorem digitsVal_natChars (n : Nat) : digitsVal (natChars n) = n := by
  induction n using Nat.strong_induction_on with
  | _ n ih =>
    rw [natChars.eq_def]
    by_cases h : n < 10
    · simp only [dif_pos h, digitsVal, List.foldl_cons, List.foldl_nil]
      rw [(digitChar_spec _ (Nat.mod_lt _ (by omega))).2]
      omega
    · simp only [dif_neg h, digitsVal, List.foldl_append, List.foldl_cons, List.foldl_nil]
      have hrec : (natChars (n / 10)).foldl (fun a c => a * 10 + (c.toNat - 48)) 0 = n / 10 :=
        ih (n / 10) (Nat.div_lt_self (by omega) (by omega))
      rw [hrec, (digitChar_spec _ (Nat.mod_lt _ (by omega))).2]
      omega

theorem grabDigits_stop {l : List Char} (h : noDigitHead l = true) :
    grabDigits l = ([], l) := by
  cases l with
  | nil => rfl
  | cons c t =>
    simp only [noDigitHead, Bool.not_eq_true'] at h
    simp [grabDigits, h]

theorem grabDigits_run (ds : List Char) (hds : ∀ c ∈ ds, jdigit c = true)
    (rest : List Char) (hrest : noDigitHead rest = true) :
    grabDigits (ds ++ rest) = (ds, rest) := by
  induction ds with
  | nil => simpa using grabDigits_stop hrest
  | cons c t ih =>
    have hc : jdigit c = true := hds c (by simp)
    have ht := ih (fun x hx => hds x (by simp [hx]))
    simp [grabDigits, hc, ht]

theorem parseIntTok_intChars (n : Int) (rest : List Char)
    (hrest : noDigitHead rest = true) :
    parseIntTok (intChars n ++ rest) = some (n, rest) := by
  have hgrab := grabDigits_run (natChars n.natAbs) (natChars_digits _) rest hrest
  have hval : digitsVal (natChars n.natAbs) = n.natAbs := digitsVal_natChars _
  rcases hz : natChars n.natAbs with _ | ⟨c, t⟩
  · exact absurd hz (natChars_ne_nil _)
  · rw [hz] at hgrab hval
    by_cases hn : n < 0
    · have harg : intChars n ++ rest = '-' :: (c :: (t ++ rest)) := by
        simp [intChars, hn, hz]
      rw [harg, parseIntTok.eq_def]
      simp only [List.cons_append] at hgrab
      have habs : ((n.natAbs : Int)) = -n := Int.ofNat_natAbs_of_nonpos (by omega)
      simp [hgrab, hval, habs]
    · have hc : jdigit c = true := natChars_digits n.natAbs c (by simp [hz])
      have hcm : ¬(c = '-') := by
        refine ne_chr ?_
        have := jdigit_bounds hc
        intro he
        rw [show ('-' : Char).toNat = 45 from rfl] at he
        omega
      have harg : intChars n ++ rest = c :: (t ++ rest) := by
        simp [intChars, hn, hz]
      rw [harg, parseIntTok.eq_def]
      simp only [List.cons_append] at hgrab
      have habs : ((n.natAbs : Int)) = n := Int.natAbs_of_nonneg (by omega)
      simp [hgrab, hval, hcm, habs]

/-! ## JSON codec lemmas: strings -/

theorem parseStrBody_escChar (c : Char) (rest : List Char) :
    parseStrBody (escChar c ++ rest)
      = (match parseStrBody rest with
         | some (body, r) => some (c :: body, r)
         | none => none) := by
  by_cases h1 : c = qc
  · subst h1; rfl
  · by_cases h2 : c = bs
    · subst h2; rfl
    · by_cases h3 : c = Char.ofNat 10
      · subst h3; rfl
      · by_cases h4 : c = Char.ofNat 13
        · subst h4; rfl
        · by_cases h5 : c = Char.ofNat 9
          · subst h5; rfl
          · have harg : escChar c ++ rest = c :: rest := by
              simp [escChar, h1, h2, h3, h4, h5]
            rw [harg, parseStrBody.eq_def]
            simp [h1, h2]

theorem parseStrBody_strBody (l : List Char) : ∀ rest : List Char,
    parseStrBody (strBody l ++ (qc :: rest)) = some (l, rest) := by
  induction l with
  | nil =>
    intro rest
    show parseStrBody (qc :: rest) = some ([], rest)
    rw [parseStrBody.eq_def]
    simp
  | cons c t ih =>
    intro rest
    rw [strBody, List.append_assoc, parseStrBody_escChar, ih]

theorem parseStrBody_strLit (s : String) (rest : List Char) :
    parseStrBody (strBody s.data ++ [qc] ++ rest) = some (s.data, rest) := by
  rw [List.append_assoc]
  exact parseStrBody_strBody s.data rest

/-! ## JSON codec lemmas: heads and sizes -/

theorem jdigit_head {c : Char} (h : jdigit c = true) :
    jws c = false ∧ c ≠ ']' ∧ c ≠ rbr ∧ c ≠ 'n' ∧ c ≠ 't' ∧ c ≠ 'f'
      ∧ c ≠ qc ∧ c ≠ '[' ∧ c ≠ lbr ∧ c ≠ ',' ∧ c ≠ ':' := by
  obtain ⟨hl, hu⟩ := jdigit_bounds h
  have hne : ∀ d : Char, d.toNat < 48 ∨ 57 < d.toNat → c ≠ d := by
    intro d hd he
    subst he
    omega
  refine ⟨?_, hne _ (by decide), hne _ (by decide), hne _ (by decide), hne _ (by decide),
    hne _ (by decide), hne _ (by decide), hne _ (by decide), hne _ (by decide),
    hne _ (by decide), hne _ (by decide)⟩
  simp only [jws, Bool.or_eq_false_iff, decide_eq_false_iff_not]
  exact ⟨⟨⟨hne _ (by decide), hne _ (by decide)⟩, hne _ (by decide)⟩, hne _ (by decide)⟩

theorem natChars_cons (m : Nat) : ∃ c t, natChars m = c :: t ∧ jdigit c = true := by
  rcases hz : natChars m with _ | ⟨c, t⟩
  · exact absurd hz (natChars_ne_nil m)
  · exact ⟨c, t, rfl, natChars_digits m c (by simp [hz])⟩

theorem renderJv_head (v : Jv) :
    ∃ c t, renderJv v = c :: t ∧ jws c = false ∧ c ≠ ']' ∧ c ≠ rbr ∧ c ≠ ',' := by
  cases v with
  | nullv => exact ⟨'n', _, rfl, by decide, by decide, by decide, by decide⟩
  | boolv b =>
    cases b with
    | true => exact ⟨'t', _, rfl, by decide, by decide, by decide, by decide⟩
    | false => exact ⟨'f', _, rfl, by decide, by decide, by decide, by decide⟩
  | strv s => exact ⟨qc, _, rfl, by decide, by decide, by decide, by decide⟩
  | arrv es => exact ⟨'[', _, rfl, by decide, by decide, by decide, by decide⟩
  | objv fs => exact ⟨lbr, _, rfl, by decide, by decide, by decide, by decide⟩
  | intv n =>
    by_cases hn : n < 0
    · refine ⟨'-', natChars n.natAbs, ?_, by decide, by decide, by decide, by decide⟩
      simp [renderJv, intChars, hn]
    · obtain ⟨c, t, hz, hc⟩ := natChars_cons n.natAbs
      obtain ⟨h1, h2, h3, -, -, -, -, -, -, h4, -⟩ := jdigit_head hc
      refine ⟨c, t, ?_, h1, h2, h3, h4⟩
      simp [renderJv, intChars, hn, hz]

theorem strLit_length (s : String) : 2 ≤ (strLit s).length := by
  simp [strLit]

theorem renderJv_length_pos (v : Jv) : 1 ≤ (renderJv v).length := by
  obtain ⟨c, t, hz, -⟩ := renderJv_head v
  simp [hz]

mutual
theorem jvSize_le_len : ∀ v : Jv, jvSize v ≤ (renderJv v).length
  | .nullv => by simp [jvSize, renderJv]
  | .boolv b => by cases b <;> simp [jvSize, renderJv]
  | .intv n => by
    have := renderJv_length_pos (.intv n)
    simpa [jvSize] using this
  | .strv s => by
    have := strLit_length s
    simp only [jvSize, renderJv]
    omega
  | .arrv es => by
    have h := itemsSize_le_len es
    simp only [jvSize, renderJv, List.length_cons, List.length_append]
    omega
  | .objv fs => by
    have h := fieldsSize_le_len fs
    simp only [jvSize, renderJv, List.length_cons, List.length_append]
    omega

theorem itemsSize_le_len : ∀ es : List Jv, itemsSize es ≤ (renderItems es).length + 1
  | [] => by simp [itemsSize, renderItems]
  | [e] => by
    have h := jvSize_le_len e
    have h2 := renderJv_length_pos e
    simp only [itemsSize, renderItems]
    omega
  | e :: e2 :: es => by
    have h := jvSize_le_len e
    have h2 := itemsSize_le_len (e2 :: es)
    simp only [itemsSize, renderItems, List.length_append, List.length_cons] at h2 ⊢
    omega

theorem fieldsSize_le_len : ∀ fs : List (String × Jv),
    fieldsSize fs ≤ (renderFields fs).length + 1
  | [] => by simp [fieldsSize, renderFields]
  | [(k, v)] => by
    have h := jvSize_le_len v
    have h2 := strLit_length k
    simp only [fieldsSize, renderFields, List.length_append, List.length_cons]
    omega
  | (k, v) :: f2 :: fs => by
    have h := jvSize_le_len v
    have h2 := fieldsSize_le_len (f2 :: fs)
    have h3 := strLit_length k
    simp only [fieldsSize, renderFields, List.length_append, List.length_cons] at h2 ⊢
    omega
end

theorem jvSize_pos (v : Jv) : 1 ≤ jvSize v := by
  cases v <;> simp [jvSize]

theorem itemsSize_pos (es : List Jv) : 1 ≤ itemsSize es := by
  cases es <;> simp [itemsSize]

theorem fieldsSize_pos (fs : List (String × Jv)) : 1 ≤ fieldsSize fs := by
  cases fs with
  | nil => simp [fieldsSize]
  | cons f fs => rcases f with ⟨k, v⟩; simp [fieldsSize]

theorem dropWs_cons {c : Char} (h : jws c = false) (l : List Char) :
    dropWs (c :: l) = c :: l := by
  simp [dropWs, h]

/-! ## JSON codec: the round-trip -/

theorem parseJv_num_branch (f : Nat) (c0 : Char) (t : List Char)
    (hws : jws c0 = false) (h2 : c0 ≠ 'n') (h3 : c0 ≠ 't') (h4 : c0 ≠ 'f')
    (h5 : c0 ≠ qc) (h6 : c0 ≠ '[') (h7 : c0 ≠ lbr)
    (h8 : (c0 = '-' || jdigit c0) = true) :
    parseJv (f + 1) (c0 :: t)
      = (match parseIntTok (c0 :: t) with
         | some (n, r2) => some (.intv n, r2)
         | none => none) := by
  simp only [parseJv]
  rw [dropWs_cons hws]
  simp [h2, h3, h4, h5, h6, h7, h8]

theorem parseJv_arr_branch (f : Nat) (c0 : Char) (t : List Char)
    (hws : jws c0 = false) (hbr : c0 ≠ ']') :
    parseJv (f + 1) ('[' :: (c0 :: t))
      = (match parseItems f (c0 :: t) with
         | some (es, r3) => some (.arrv es, r3)
         | none => none) := by
  have hstep : parseJv (f + 1) ('[' :: (c0 :: t))
      = (match dropWs (c0 :: t) with
         | c2 :: r2 =>
           if c2 = ']' then some (.arrv [], r2)
           else
             match parseItems f (c2 :: r2) with
             | some (es, r3) => some (.arrv es, r3)
             | none => none
         | [] => none) := rfl
  rw [hstep, dropWs_cons hws]
  simp [hbr]

theorem parseJv_obj_branch (f : Nat) (c0 : Char) (t : List Char)
    (hws : jws c0 = false) (hbr : c0 ≠ rbr) :
    parseJv (f + 1) (lbr :: (c0 :: t))
      = (match parseFieldList f (c0 :: t) with
         | some (fs, r3) => some (.objv fs, r3)
         | none => none) := by
  have hstep : parseJv (f + 1) (lbr :: (c0 :: t))
      = (match dropWs (c0 :: t) with
         | c2 :: r2 =>
           if c2 = rbr then some (.objv [], r2)
           else
             match parseFieldList f (c2 :: r2) with
             | some (fs, r3) => some (.objv fs, r3)
             | none => none
         | [] => none) := rfl
  rw [hstep, dropWs_cons hws]
  simp [hbr]

theorem parseItems_step (f : Nat) (cs : List Char) :
    parseItems (f + 1) cs
      = (match parseJv f cs with
         | none => none
         | some (v, r) =>
           match dropWs r with
           | ',' :: r2 =>
             match parseItems f (dropWs r2) with
             | some (vs, r3) => some (v :: vs, r3)
             | none => none
           | c2 :: r2 => if c2 = ']' then some ([v], r2) else none
           | [] => none) := rfl

theorem parseFieldList_step (f : Nat) (cs : List Char) :
    parseFieldList (f + 1) cs
      = (match dropWs cs with
         | c :: r =>
           if c = qc then
             match parseStrBody r with
             | some (kb, r1) =>
               match dropWs r1 with
               | ':' :: r2 =>
                 match parseJv f (dropWs r2) with
                 | some (v, r3) =>
                   match dropWs r3 with
                   | ',' :: r4 =>
                     (match parseFieldList f (dropWs r4) with
                      | some (fs, r5) => some ((String.mk kb, v) :: fs, r5)
                      | none => none)
                   | c5 :: r4 => if c5 = rbr then some ([(String.mk kb, v)], r4) else none
                   | [] => none
                 | none => none
               | x => none
             | none => none
           else none
         | [] => none) := rfl

theorem dropWs_renderJv (v : Jv) (y : List Char) :
    dropWs (renderJv v ++ y) = renderJv v ++ y := by
  obtain ⟨c, t, hz, hws, -, -, -⟩ := renderJv_head v
  rw [hz, List.cons_append, dropWs_cons hws]

theorem renderItems_head (e : Jv) (es : List Jv) (y : List Char) :
    ∃ c t, renderItems (e :: es) ++ y = c :: t ∧ jws c = false ∧ c ≠ ']' ∧ c ≠ rbr := by
  obtain ⟨c, t0, hz, hws, hbr, hbr2, -⟩ := renderJv_head e
  cases es with
  | nil =>
    exact ⟨c, t0 ++ y, by simp [renderItems, hz], hws, hbr, hbr2⟩
  | cons e2 es2 =>
    refine ⟨c, t0 ++ (',' :: (renderItems (e2 :: es2) ++ y)), ?_, hws, hbr, hbr2⟩
    simp [renderItems, hz]

theorem renderFields_head (k : String) (v : Jv) (fs : List (String × Jv)) (y : List Char) :
    ∃ t, renderFields ((k, v) :: fs) ++ y = qc :: t := by
  cases fs with
  | nil =>
    exact ⟨(strBody k.data ++ [qc]) ++ (':' :: (renderJv v ++ y)),
      by simp [renderFields, strLit]⟩
  | cons f2 fs2 =>
    exact ⟨(strBody k.data ++ [qc])
        ++ (':' :: (renderJv v ++ (',' :: (renderFields (f2 :: fs2) ++ y)))),
      by simp [renderFields, strLit]⟩

theorem parseFieldList_key (f : Nat) (kd : List Char) (z : List Char) :
    parseFieldList (f + 1) (qc :: ((strBody kd ++ [qc]) ++ z))
      = (match dropWs z with
         | ':' :: r2 =>
           match parseJv f (dropWs r2) with
           | some (v, r3) =>
             match dropWs r3 with
             | ',' :: r4 =>
               (match parseFieldList f (dropWs r4) with
                | some (fs, r5) => some ((String.mk kd, v) :: fs, r5)
                | none => none)
             | c5 :: r4 => if c5 = rbr then some ([(String.mk kd, v)], r4) else none
             | [] => none
           | none => none
         | x => none) := by
  rw [parseFieldList_step, dropWs_cons (by decide)]
  have hb : (strBody kd ++ [qc]) ++ z = strBody kd ++ (qc :: z) := by
    simp
  rw [hb]
  simp only [parseStrBody_strBody]
  simp

theorem json_roundtrip_all : ∀ fuel : Nat,
    (∀ (v : Jv) (rest : List Char), jvSize v ≤ fuel → noDigitHead rest = true →
      parseJv fuel (renderJv v ++ rest) = some (v, rest))
    ∧ (∀ (e : Jv) (es : List Jv) (rest : List Char), itemsSize (e :: es) ≤ fuel →
      parseItems fuel (renderItems (e :: es) ++ (']' :: rest)) = some (e :: es, rest))
    ∧ (∀ (k : String) (v : Jv) (fs : List (String × Jv)) (rest : List Char),
        fieldsSize ((k, v) :: fs) ≤ fuel →
        parseFieldList fuel (renderFields ((k, v) :: fs) ++ (rbr :: rest))
          = some ((k, v) :: fs, rest)) := by
  intro fuel
  induction fuel using Nat.strong_induction_on with
  | _ fuel ih =>
  rcases fuel with _ | f
  · refine ⟨?_, ?_, ?_⟩
    · intro v rest hs _
      have := jvSize_pos v
      omega
    · intro e es rest hs
      have := itemsSize_pos (e :: es)
      omega
    · intro k v fs rest hs
      have := fieldsSize_pos ((k, v) :: fs)
      omega
  · obtain ⟨ihV, ihI, ihF⟩ := ih f (Nat.lt_succ_self f)
    refine ⟨?_, ?_, ?_⟩
    · intro v rest hs hrest
      cases v with
      | nullv => rfl
      | boolv b => cases b <;> rfl
      | strv s =>
        have hl : renderJv (.strv s) ++ rest
            = qc :: ((strBody s.data ++ [qc]) ++ rest) := by
          simp [renderJv, strLit]
        rw [hl]
        have hstep : parseJv (f + 1) (qc :: ((strBody s.data ++ [qc]) ++ rest))
            = (match parseStrBody ((strBody s.data ++ [qc]) ++ rest) with
               | some (body, r2) => some (.strv (String.mk body), r2)
               | none => none) := rfl
        rw [hstep, parseStrBody_strLit]
      | intv n =>
        by_cases hn : n < 0
        · have hl : renderJv (.intv n) ++ rest = '-' :: (natChars n.natAbs ++ rest) := by
            simp [renderJv, intChars, hn]
          rw [hl, parseJv_num_branch f '-' (natChars n.natAbs ++ rest)
            (by decide) (by decide) (by decide) (by decide) (by decide) (by decide)
            (by decide) (by decide)]
          have hback : '-' :: (natChars n.natAbs ++ rest) = intChars n ++ rest := by
            simp [intChars, hn]
          rw [hback, parseIntTok_intChars n rest hrest]
        · obtain ⟨c, t, hz, hc⟩ := natChars_cons n.natAbs
          obtain ⟨hws, -, -, hcn, hct, hcf, hcq, hcbk, hcbc, -, -⟩ := jdigit_head hc
          have hl : renderJv (.intv n) ++ rest = c :: (t ++ rest) := by
            simp [renderJv, intChars, hn, hz]
          rw [hl, parseJv_num_branch f c (t ++ rest) hws hcn hct hcf hcq hcbk hcbc
            (by simp [hc])]
          have hback : c :: (t ++ rest) = intChars n ++ rest := by
            simp [intChars, hn, hz]
          rw [hback, parseIntTok_intChars n rest hrest]
      | arrv es =>
        cases es with
        | nil => rfl
        | cons e es2 =>
          have hl : renderJv (.arrv (e :: es2)) ++ rest
              = '[' :: (renderItems (e :: es2) ++ (']' :: rest)) := by
            simp [renderJv]
          obtain ⟨c0, t0, hd, hws0, hbr0, -⟩ := renderItems_head e es2 (']' :: rest)
          have hsz : itemsSize (e :: es2) ≤ f := by
            simp only [jvSize] at hs
            omega
          rw [hl, hd, parseJv_arr_branch f c0 t0 hws0 hbr0, ← hd, ihI e es2 rest hsz]
      | objv fs =>
        cases fs with
        | nil => rfl
        | cons kv fs2 =>
          rcases kv with ⟨k, v⟩
          have hl : renderJv (.objv ((k, v) :: fs2)) ++ rest
              = lbr :: (renderFields ((k, v) :: fs2) ++ (rbr :: rest)) := by
            simp [renderJv]
          obtain ⟨T, hd⟩ := renderFields_head k v fs2 (rbr :: rest)
          have hsz : fieldsSize ((k, v) :: fs2) ≤ f := by
            simp only [jvSize] at hs
            omega
          rw [hl, hd, parseJv_obj_branch f qc T (by decide) (by decide), ← hd,
            ihF k v fs2 rest hsz]
    · intro e es rest hs
      cases es with
      | nil =>
        have hsz : jvSize e ≤ f := by
          simp only [itemsSize] at hs
          have := jvSize_pos e
          omega
        have hl : renderItems [e] ++ (']' :: rest) = renderJv e ++ (']' :: rest) := by
          simp [renderItems]
        rw [hl, parseItems_step, ihV e (']' :: rest) hsz rfl]
        simp [dropWs_cons (show jws ']' = false from rfl)]
      | cons e2 es2 =>
        have hsz : jvSize e ≤ f := by
          simp only [itemsSize] at hs
          omega
        have hsz2 : itemsSize (e2 :: es2) ≤ f := by
          simp only [itemsSize] at hs ⊢
          omega
        have hl : renderItems (e :: e2 :: es2) ++ (']' :: rest)
            = renderJv e ++ (',' :: (renderItems (e2 :: es2) ++ (']' :: rest))) := by
          simp [renderItems]
        rw [hl, parseItems_step,
          ihV e (',' :: (renderItems (e2 :: es2) ++ (']' :: rest))) hsz rfl]
        simp only [dropWs_cons (show jws ',' = false from rfl)]
        obtain ⟨c0, t0, hd, hws0, -, -⟩ := renderItems_head e2 es2 (']' :: rest)
        rw [hd, dropWs_cons hws0, ← hd, ihI e2 es2 rest hsz2]
    · intro k v fs rest hs
      cases fs with
      | nil =>
        have hsz : jvSize v ≤ f := by
          simp only [fieldsSize] at hs
          have := jvSize_pos v
          omega
        have hl : renderFields [(k, v)] ++ (rbr :: rest)
            = qc :: ((strBody k.data ++ [qc]) ++ (':' :: (renderJv v ++ (rbr :: rest)))) := by
          simp [renderFields, strLit]
        rw [hl, parseFieldList_key, dropWs_cons (show jws ':' = false from rfl)]
        simp only [dropWs_renderJv, ihV v (rbr :: rest) hsz rfl,
          dropWs_cons (show jws rbr = false from rfl)]
        rfl
      | cons f2 fs2 =>
        rcases f2 with ⟨k2, v2⟩
        have hsz : jvSize v ≤ f := by
          simp only [fieldsSize] at hs
          omega
        have hsz2 : fieldsSize ((k2, v2) :: fs2) ≤ f := by
          simp only [fieldsSize] at hs ⊢
          omega
        have hl : renderFields ((k, v) :: (k2, v2) :: fs2) ++ (rbr :: rest)
            = qc :: ((strBody k.data ++ [qc])
                ++ (':' :: (renderJv v
                    ++ (',' :: (renderFields ((k2, v2) :: fs2) ++ (rbr :: rest)))))) := by
          simp [renderFields, strLit]
        rw [hl, parseFieldList_key, dropWs_cons (show jws ':' = false from rfl)]
        simp only [dropWs_renderJv,
          ihV v (',' :: (renderFields ((k2, v2) :: fs2) ++ (rbr :: rest))) hsz rfl,
          dropWs_cons (show jws ',' = false from rfl)]
        obtain ⟨T, hd⟩ := renderFields_head k2 v2 fs2 (rbr :: rest)
        rw [hd, dropWs_cons (show jws qc = false from rfl), ← hd, ihF k2 v2 fs2 rest hsz2]

/-! ## Instruction list to and from JSON: the round-trip -/

theorem parseDoc_render (v : Jv) : parseDoc (String.mk (renderJv v)) = some v := by
  have h := (json_roundtrip_all ((renderJv v).length + 1)).1 v []
    (le_trans (jvSize_le_len v) (by omega)) rfl
  rw [List.append_nil] at h
  simp [parseDoc, h, dropWs]

theorem lookupField_fieldOpt_append {k k2 : String} (h : k2 ≠ k) (v : JSVal)
    (b : List (String × Jv)) :
    lookupField k (fieldOpt k2 v ++ b) = lookupField k b := by
  cases hv : jvOfJSVal v <;> simp [fieldOpt, hv, lookupField, h]

theorem jsvalField_skip1 {k k2 : String} (h : k2 ≠ k) (v : JSVal)
    (x : List (String × Jv)) :
    jsvalField (fieldOpt k2 v ++ x) k = jsvalField x k := by
  simp [jsvalField, lookupField_fieldOpt_append h]

theorem lookupField_fieldOpt_ne {k k2 : String} (h : k2 ≠ k) (v : JSVal) :
    lookupField k (fieldOpt k2 v) = none := by
  cases hv : jvOfJSVal v <;> simp [fieldOpt, hv, lookupField, h]

theorem jsvalField_cons_ne {k k2 : String} (h : k2 ≠ k) (j : Jv)
    (x : List (String × Jv)) :
    jsvalField ((k2, j) :: x) k = jsvalField x k := by
  simp [jsvalField, lookupField, h]

theorem jsvalField_fieldOpt (k : String) (v : JSVal) (tail : List (String × Jv))
    (htail : lookupField k tail = none) :
    jsvalField (fieldOpt k v ++ tail) k = v := by
  cases v <;> simp [fieldOpt, jvOfJSVal, jsvalField, lookupField, jsvalOfJv, htail]

theorem jsvalField_fieldOpt_nil (k : String) (v : JSVal) :
    jsvalField (fieldOpt k v) k = v := by
  cases v <;> simp [fieldOpt, jvOfJSVal, jsvalField, lookupField, jsvalOfJv]

theorem paramsOfJv_jvOfParams (p : JParams) : paramsOfJv (jvOfParams p) = .obj p := by
  rcases p with ⟨u, sl, fb, va, asr, ti, se, co, ke, di⟩
  simp [jvOfParams, paramsOfJv, jsvalField_skip1, jsvalField_fieldOpt,
    jsvalField_fieldOpt_nil, lookupField_fieldOpt_append, lookupField_fieldOpt_ne,
    lookupField]

theorem paramsOfJv_jvOfParamsV {pa : ParamsV} {j : Jv} (h : jvOfParamsV pa = some j) :
    paramsOfJv j = pa := by
  cases pa with
  | obj p =>
    simp only [jvOfParamsV, Option.some.injEq] at h
    rw [← h]
    exact paramsOfJv_jvOfParams p
  | prim v =>
    cases v with
    | undefined => simp [jvOfParamsV, jvOfJSVal] at h
    | jsNull =>
      simp only [jvOfParamsV, jvOfJSVal, Option.some.injEq] at h
      subst h; rfl
    | bool b =>
      simp only [jvOfParamsV, jvOfJSVal, Option.some.injEq] at h
      subst h; rfl
    | num n =>
      simp only [jvOfParamsV, jvOfJSVal, Option.some.injEq] at h
      subst h; rfl
    | str s2 =>
      simp only [jvOfParamsV, jvOfJSVal, Option.some.injEq] at h
      subst h; rfl

theorem jvOfParamsV_none {pa : ParamsV} (h : jvOfParamsV pa = none) :
    pa = .prim .undefined := by
  cases pa with
  | obj p => simp [jvOfParamsV] at h
  | prim v => cases v <;> simp_all [jvOfParamsV, jvOfJSVal]

theorem instructionOfJv_jvOfInstruction (i : JInstruction) :
    instructionOfJv (jvOfInstruction i) = some i := by
  rcases i with ⟨sid, aty, pa, de, pn⟩
  simp only [jvOfInstruction, instructionOfJv, Option.some.injEq]
  cases hpv : jvOfParamsV pa with
  | some j =>
    have hp := paramsOfJv_jvOfParamsV hpv
    simp [jsvalField_skip1, jsvalField_fieldOpt, jsvalField_fieldOpt_nil,
      jsvalField_cons_ne, lookupField_fieldOpt_append, lookupField_fieldOpt_ne,
      lookupField, hp]
  | none =>
    have hp := jvOfParamsV_none hpv
    subst hp
    simp [jsvalField_skip1, jsvalField_fieldOpt, jsvalField_fieldOpt_nil,
      jsvalField_cons_ne, lookupField_fieldOpt_append, lookupField_fieldOpt_ne,
      lookupField]

theorem parseInstructionList_serialize (insts : List JInstruction) :
    parseInstructionList (serializeInstructionList insts) = some insts := by
  simp only [parseInstructionList, serializeInstructionList]
  rw [parseDoc_render]
  simp only [instructionsOfJv]
  induction insts with
  | nil => rfl
  | cons i is ih =>
    simp [instructionListOfJv, instructionOfJv_jvOfInstruction, List.map_cons, ih]

/-- Writing then reading the cache entry of a prompt recovers the list: the
path is recomputed from the same hash on both sides, and parsing inverts
serialization. -/
theorem readCache_writeCache (md5hex : String → String) (σ : CacheStore)
    (prompt : String) (insts : List JInstruction) :
    readCacheEntry md5hex (writeCacheEntry md5hex σ prompt insts) prompt = some insts := by
  simp [readCacheEntry, writeCacheEntry, writeCacheFile, parseInstructionList_serialize]

/-! ## Cache claims -/

/-- C9: the cache key is recomputed by the same deterministic hash-of-prompt
on the write and on every later read, so writing a cache entry for a prompt
and then reading it back yields an instruction list deep-equal to the one
written: serialize-then-parse is the identity on the stored list. -/
theorem cache_write_then_read_deep_equal (md5hex : String → String) (σ : CacheStore)
    (prompt : String) (insts : List JInstruction) :
    readCacheEntry md5hex (writeCacheEntry md5hex σ prompt insts) prompt = some insts :=
  readCache_writeCache md5hex σ prompt insts

/-- C10 counterexample: on a concrete cache-miss run whose prompt holds a URL
and whose plan starts with a navigate, the persisted entry is the marked
list — the transient `_preNavigated` flag is written to the cache, so the
stored entry is not deep-equal to the planner's list. -/
theorem workflow_marking_persisted_counterexample :
    readCacheEntry cHash
        (workflowGetInstructions cHash emptyCache cPrompt cPlanned true true).1 cPrompt
      = some (markFirstPreNavigated cPlanned)
    ∧ readCacheEntry cHash
        (workflowGetInstructions cHash emptyCache cPrompt cPlanned true true).1 cPrompt
      ≠ some cPlanned
    ∧ (markFirstPreNavigated cPlanned).head?.map (fun i => i.preNavigated)
      = some (.bool true)
    ∧ cPlanned.head?.map (fun i => i.preNavigated) = some .undefined := by
  have hu : (extractUrlFromPrompt cPrompt).isSome = true := by decide
  have hn : firstIsNavigate cPlanned = true := by decide
  have h1 : (workflowGetInstructions cHash emptyCache cPrompt cPlanned true true).1
      = writeCacheEntry cHash emptyCache cPrompt (markFirstPreNavigated cPlanned) := by
    simp [workflowGetInstructions, emptyCache, hu, hn, writeCacheEntry]
  refine ⟨?_, ?_, by decide, by decide⟩
  · rw [h1, readCache_writeCache]
  · rw [h1, readCache_writeCache]
    simp only [ne_eq, Option.some.injEq]
    decide

/-- C10 (amended): on every cache-miss run with caching on, the persisted
instruction list is the list handed to the stream runner: the planner's list
with the first step marked `_preNavigated` exactly when a URL was extracted
from the prompt, a page is present, and that first step is a navigate.  The
transient marking is therefore part of the stored plan in that case (the
source writes the cache only after applying the marking). -/
theorem workflow_cache_miss_persists_marked (md5hex : String → String)
    (σ : CacheStore) (prompt : String) (planned : List JInstruction) (hasPage : Bool)
    (hmiss : σ.find (getCachePath md5hex prompt) = none) :
    readCacheEntry md5hex
        (workflowGetInstructions md5hex σ prompt planned hasPage true).1 prompt
      = some (if (extractUrlFromPrompt prompt).isSome && hasPage && firstIsNavigate planned
              then markFirstPreNavigated planned
              else planned)
    ∧ (workflowGetInstructions md5hex σ prompt planned hasPage true).2
      = some (if (extractUrlFromPrompt prompt).isSome && hasPage && firstIsNavigate planned
              then markFirstPreNavigated planned
              else planned) := by
  have h1 : (workflowGetInstructions md5hex σ prompt planned hasPage true).1
      = writeCacheEntry md5hex σ prompt
          (if (extractUrlFromPrompt prompt).isSome && hasPage && firstIsNavigate planned
           then markFirstPreNavigated planned
           else planned) := by
    simp [workflowGetInstructions, hmiss, writeCacheEntry]
  refine ⟨?_, ?_⟩
  · rw [h1, readCache_writeCache]
  · simp [workflowGetInstructions, hmiss]

/-- C10 witness: the amended statement evaluated on the concrete cache-miss
run of the counterexample. -/
theorem workflow_cache_miss_persists_marked_witness :
    readCacheEntry cHash
        (workflowGetInstructions cHash emptyCache cPrompt cPlanned true true).1 cPrompt
      = some (if (extractUrlFromPrompt cPrompt).isSome && true && firstIsNavigate cPlanned
              then markFirstPreNavigated cPlanned
              else cPlanned) :=
  (workflow_cache_miss_persists_marked cHash emptyCache cPrompt cPlanned true rfl).1

end AutoUi
